import Mathlib

/-!
Shallow embedding of the autosync repository's sync engine
(src/sync_engine.py and src/state_db.py), together with the small parts
of src/onedrive_api.py and src/config.py that those two modules consume.

Python dictionaries keyed by relative path are embedded as association
lists with insertion-order-preserving update (matching CPython dict
semantics); machine state touched by the reconciler (the remote listing,
the local tree, and the persisted SyncState) is threaded explicitly.
Network and filesystem effects are mediated by an explicit environment
record of oracles (download success, upload results, observed mtimes,
hashes, clock), so the engine functions stay pure and executable.
-/

namespace Autosync

/-! ## Association-list maps (CPython dict semantics) -/

/-- Lookup in an association list, first binding wins (dict lookup). -/
def mapLookup {α : Type} (m : List (String × α)) (k : String) : Option α :=
  match m with
  | [] => none
  | (k1, v) :: rest => if k1 = k then some v else mapLookup rest k

/-- Dict assignment: replace an existing binding in place, else append. -/
def mapInsert {α : Type} (m : List (String × α)) (k : String) (v : α) :
    List (String × α) :=
  match m with
  | [] => [(k, v)]
  | (k1, v1) :: rest =>
      if k1 = k then (k, v) :: rest else (k1, v1) :: mapInsert rest k v

/-- Dict pop(k, None): remove the binding for the key. -/
def mapErase {α : Type} (m : List (String × α)) (k : String) :
    List (String × α) :=
  match m with
  | [] => []
  | (k1, v1) :: rest =>
      if k1 = k then mapErase rest k else (k1, v1) :: mapErase rest k

theorem mapLookup_insert_self {α : Type} (m : List (String × α)) (k : String) (v : α) :
    mapLookup (mapInsert m k v) k = some v := by
  induction m with
  | nil => simp [mapInsert, mapLookup]
  | cons kv rest ih =>
      obtain ⟨k1, v1⟩ := kv
      by_cases h : k1 = k
      · simp [mapInsert, h, mapLookup]
      · simp [mapInsert, h, mapLookup, ih]

theorem mapLookup_insert_ne {α : Type} (m : List (String × α)) (k p : String) (v : α)
    (h : k ≠ p) : mapLookup (mapInsert m k v) p = mapLookup m p := by
  induction m with
  | nil => simp [mapInsert, mapLookup, h]
  | cons kv rest ih =>
      obtain ⟨k1, v1⟩ := kv
      by_cases h1 : k1 = k
      · subst h1
        simp [mapInsert, mapLookup, h]
      · simp [mapInsert, h1, mapLookup, ih]

theorem mapLookup_erase_self {α : Type} (m : List (String × α)) (k : String) :
    mapLookup (mapErase m k) k = none := by
  induction m with
  | nil => simp [mapErase, mapLookup]
  | cons kv rest ih =>
      obtain ⟨k1, v1⟩ := kv
      by_cases h : k1 = k
      · simpa [mapErase, h] using ih
      · simp [mapErase, h, mapLookup, ih]

theorem mapLookup_erase_ne {α : Type} (m : List (String × α)) (k p : String)
    (h : k ≠ p) : mapLookup (mapErase m k) p = mapLookup m p := by
  induction m with
  | nil => simp [mapErase, mapLookup]
  | cons kv rest ih =>
      obtain ⟨k1, v1⟩ := kv
      by_cases h1 : k1 = k
      · subst h1
        simp [mapErase, mapLookup, h, ih]
      · simp [mapErase, h1, mapLookup, ih]

/-! ## String helpers used by the filters (src/sync_engine.py:107-137) -/

/-- Auxiliary: one char-list is an initial segment of another. -/
def charListInit : List Char → List Char → Bool
  | [], _ => true
  | _ :: _, [] => false
  | c :: cs, d :: ds => c = d && charListInit cs ds

/-- Python str.startswith. -/
def pyStartsWith (s pre : String) : Bool :=
  charListInit pre.data s.data

/-- Auxiliary: the characters after the last slash. -/
def afterLastSlash : List Char → List Char → List Char
  | [], acc => acc.reverse
  | c :: cs, acc =>
      if c = '/' then afterLastSlash cs [] else afterLastSlash cs (c :: acc)

/-- os.path.basename for POSIX-style relative paths: text after the last slash. -/
def pyBasename (s : String) : String :=
  String.mk (afterLastSlash s.data [])

/-- Python str.strip(): drop leading and trailing whitespace. -/
def pyStrip (s : String) : String :=
  String.mk ((s.data.dropWhile Char.isWhitespace).reverse.dropWhile
    Char.isWhitespace |>.reverse)

/-- Python str.strip(chars) for the single char slash. -/
def pyStripSlash (s : String) : String :=
  String.mk ((s.data.dropWhile (fun c => c = '/')).reverse.dropWhile
    (fun c => c = '/') |>.reverse)

/-- fnmatch-style glob over char lists; supports the wildcards star
(any run of characters, realized as a match of any text suffix) and
question mark (any single character); other characters match literally. -/
def globMatch : List Char → List Char → Bool
  | [], cs => cs.isEmpty
  | '*' :: ps, cs => cs.tails.any (fun t => globMatch ps t)
  | _ :: _, [] => false
  | p :: ps, c :: cs => (p = '?' || p = c) && globMatch ps cs

/-- fnmatch.fnmatch on a POSIX system (os.path.normcase is the identity). -/
def fnmatch (name pat : String) : Bool :=
  globMatch pat.data name.data

/-! ## Configuration (src/config.py) -/

/-- The configuration values the sync engine reads. -/
structure Config where
  ignore_patterns : List String
  sync_folders : List String
  exclude_folders : List String
  deriving Repr, DecidableEq

/-- config.py line 27: the default ignore pattern list. -/
def defaultIgnorePatterns : List String :=
  ["~$*", "*.tmp", ".DS_Store", "Thumbs.db"]

/-- A configuration with default ignore patterns and no selective-sync folders. -/
def defaultConfig : Config :=
  { ignore_patterns := defaultIgnorePatterns
    sync_folders := []
    exclude_folders := [] }

/-! ## Ignore and scope filters (src/sync_engine.py:107-137) -/

/-- sync_engine._should_ignore: state files always ignored, then the
fnmatch patterns over the basename. -/
def shouldIgnore (cfg : Config) (rel_path : String) : Bool :=
  let basename := pyBasename rel_path
  if basename = "sync_state.json" then true
  else if pyStartsWith basename ".sync_state" then true
  else cfg.ignore_patterns.any (fun pat => fnmatch basename pat)

/-- Helper for _is_in_sync_scope: path equals the trimmed folder or lies
under it with a slash. -/
def underFolder (rel_path folder : String) : Bool :=
  let f := pyStripSlash (pyStrip folder)
  if f = "" then false
  else rel_path = f || pyStartsWith rel_path (f ++ "/")

/-- sync_engine._is_in_sync_scope: exclusion folders first, then
inclusion folders (an empty include list includes everything). -/
def isInSyncScope (cfg : Config) (rel_path : String) : Bool :=
  if cfg.exclude_folders.any (fun ex => underFolder rel_path ex) then false
  else if cfg.sync_folders = [] then true
  else cfg.sync_folders.any (fun inc => underFolder rel_path inc)

/-- Spec section 4.3: should_sync is the conjunction of the ignore filter
and the scope filter. -/
def shouldSync (cfg : Config) (rel_path : String) : Bool :=
  !shouldIgnore cfg rel_path && isInSyncScope cfg rel_path

/-! ## Data model -/

/-- One element of the remote listing, as produced by
onedrive_api.list_remote_files (src/onedrive_api.py:76-123): size,
lastModifiedDateTime and remote_hash are always present (defaults 0, the
empty string, the empty string). The path is the association-list key. -/
structure RemoteInfo where
  size : Nat
  lastModifiedDateTime : String
  remote_hash : String
  deriving Repr, DecidableEq

/-- One element of the local walk (src/sync_engine.py:171-188):
size and ISO mtime from os.stat. -/
structure LocalInfo where
  size : Nat
  mtime : String
  deriving Repr, DecidableEq

/-- A state entry as written by state_db.set_file_entry
(src/state_db.py:57-70). The two hash keys are present only when the
corresponding argument was not None. synced_at is the wall clock at the
write. -/
structure FileEntry where
  size : Nat
  local_mtime : String
  remote_mtime : String
  synced_at : String
  local_hash : Option String
  remote_hash : Option String
  deriving Repr, DecidableEq

/-- state_db.set_file_entry as an entry constructor. -/
def setFileEntry (now : String) (size : Nat) (local_mtime remote_mtime : String)
    (local_hash remote_hash : Option String) : FileEntry :=
  { size := size
    local_mtime := local_mtime
    remote_mtime := remote_mtime
    synced_at := now
    local_hash := local_hash
    remote_hash := remote_hash }

/-- A retry-queue element (src/state_db.py:78-94). next_retry is a unix
timestamp in seconds. -/
structure RetryItem where
  path : String
  action : String
  attempts : Nat
  next_retry : Nat
  error : String
  deriving Repr, DecidableEq

/-- The persisted SyncState document (src/state_db.py:112-113). -/
structure SyncState where
  files : List (String × FileEntry)
  retry_queue : List RetryItem
  delta_link : Option String
  last_poll : Option String
  deriving Repr, DecidableEq

/-- The machine state one reconciliation pass reads and writes: the
remote listing (as the map remote_files of full_sync), the on-disk local
tree (before the walk filters), and the persisted state. -/
structure World where
  remote : List (String × RemoteInfo)
  fsLocal : List (String × LocalInfo)
  state : SyncState
  deriving Repr, DecidableEq

/-- The metadata dict returned by a successful onedrive_api.upload_file:
the lastModifiedDateTime key and the file.hashes sub-dict. -/
structure UploadResult where
  lastModifiedDateTime : Option String
  sha256Hash : Option String
  quickXorHash : Option String
  deriving Repr, DecidableEq

/-- The chain at src/sync_engine.py:485-488 and 609-612:
remote_hash is empty unless hashes is non-empty, in which case it is
sha256Hash or-else quickXorHash or-else the empty string (Python or
skips falsy values). -/
def uploadResultHash (res : UploadResult) : String :=
  match res.sha256Hash with
  | some h => if h = "" then (res.quickXorHash.getD "") else h
  | none => res.quickXorHash.getD ""

/-- Oracles for the effectful primitives one pass performs. The engine
code is deterministic given these observations. -/
structure Env where
  downloadOk : String → Bool
  uploadRes : String → Option UploadResult
  deleteOk : String → Bool
  dlMtime : String → String
  dlSize : String → Nat
  dlHash : String → Option String
  localHash : String → Option String
  now : String
  nowTs : Nat
  conflictStamp : String

/-- Observable I/O events, in program order, used to settle ordering
claims (mark-before-transfer, retry_failed history events). -/
inductive Event where
  | mark (p : String)
  | download (p : String)
  | upload (p : String)
  | renameConflict (p conflict_rel : String)
  | deleteRemote (p : String)
  | removeLocal (p : String)
  | retryFailed (p action : String)
  deriving Repr, DecidableEq

/-! ## Action classification (src/sync_engine.py:199-215) -/

/-- The typed actions full_sync builds (the action tuples of
src/sync_engine.py:206-215). -/
inductive SyncAction where
  | sync_existing (p : String) (r : RemoteInfo) (l : LocalInfo)
  | local_deleted (p : String)
  | remote_deleted (p : String)
  | download_new (p : String) (r : RemoteInfo)
  | upload_new (p : String) (l : LocalInfo)
  deriving Repr, DecidableEq

/-- The path an action is about. -/
def SyncAction.path : SyncAction → String
  | .sync_existing p _ _ => p
  | .local_deleted p => p
  | .remote_deleted p => p
  | .download_new p _ => p
  | .upload_new p _ => p

/-- The if/elif chain of src/sync_engine.py:206-215 for one path.  Note
the fourth test (in_remote and not in_state) precedes the upload_new
test, so a path present remotely and locally but untracked is classified
download_new. -/
def classifyAt (remoteM : List (String × RemoteInfo))
    (localM : List (String × LocalInfo))
    (filesM : List (String × FileEntry)) (p : String) : Option SyncAction :=
  match mapLookup remoteM p, mapLookup localM p, mapLookup filesM p with
  | some r, some l, some _ => some (.sync_existing p r l)
  | some _, none, some _ => some (.local_deleted p)
  | none, some _, some _ => some (.remote_deleted p)
  | some r, some _, none => some (.download_new p r)
  | some r, none, none => some (.download_new p r)
  | none, some l, none => some (.upload_new p l)
  | none, none, _ => none

/-- Insertion sort on strings, modelling Python sorted() on a set of
paths (the claims below depend only on membership and distinctness). -/
def insertSorted (x : String) : List String → List String
  | [] => [x]
  | y :: ys => if x ≤ y then x :: y :: ys else y :: insertSorted x ys

/-- Sort a list of paths. -/
def sortPaths : List String → List String
  | [] => []
  | x :: xs => insertSorted x (sortPaths xs)

/-- src/sync_engine.py:190-215: the union of remote, walked-local and
state keys, filtered by _is_in_sync_scope only (not by _should_ignore),
sorted, and classified. -/
def buildActions (cfg : Config) (remoteM : List (String × RemoteInfo))
    (localM : List (String × LocalInfo))
    (filesM : List (String × FileEntry)) : List SyncAction :=
  let allPaths :=
    (remoteM.map Prod.fst ++ localM.map Prod.fst ++ filesM.map Prod.fst).dedup
  let inScope := allPaths.filter (fun p => isInSyncScope cfg p)
  (sortPaths inScope).filterMap (fun p => classifyAt remoteM localM filesM p)

/-- The local walk of src/sync_engine.py:171-188: every on-disk file
surviving _should_ignore and _is_in_sync_scope. -/
def localWalk (cfg : Config) (fsLocal : List (String × LocalInfo)) :
    List (String × LocalInfo) :=
  match fsLocal with
  | [] => []
  | (p, li) :: rest =>
      if !shouldIgnore cfg p && isInSyncScope cfg p then
        (p, li) :: localWalk cfg rest
      else localWalk cfg rest

/-! ## Conflict naming (src/sync_engine.py:496-506, config.py:50) -/

/-- Last index of a character in a char list. -/
def lastIdx (c : Char) : List Char → Option Nat
  | [] => none
  | d :: ds =>
      match lastIdx c ds with
      | some i => some (i + 1)
      | none => if d = c then some 0 else none

/-- os.path.splitext: split at the last dot of the final path component,
except when every character of the component before that dot is a dot. -/
def pySplitExt (s : String) : String × String :=
  let cs := s.data
  let sepIndex : Int := match lastIdx '/' cs with | some i => (i : Int) | none => -1
  let dotIndex : Int := match lastIdx '.' cs with | some i => (i : Int) | none => -1
  if sepIndex < dotIndex then
    let fnStart := (sepIndex + 1).toNat
    let dotN := dotIndex.toNat
    if ((cs.drop fnStart).take (dotN - fnStart)).any (fun c => c ≠ '.') then
      (String.mk (cs.take dotN), String.mk (cs.drop dotN))
    else (s, "")
  else (s, "")

/-- The conflict filename: base + "_CONFLICT" + "_" + timestamp + ext
(CONFLICT_SUFFIX is config.py:50). -/
def conflictName (rel_path stamp : String) : String :=
  let be := pySplitExt rel_path
  be.1 ++ "_CONFLICT" ++ "_" ++ stamp ++ be.2

/-! ## Action execution (src/sync_engine.py:220-244 and 433-617)

Each handler is embedded as a pure transformer of the World plus a trace
of its I/O events in program order.  The model covers exception-free
executions: primitives report failure through their return values
(download_file false, upload_file None), exactly the failure modes the
handlers test for. -/

/-- Truthiness of the Python value returned by _compute_local_hash
(None or a hex string). -/
def hashTruthy : Option String → Bool
  | none => false
  | some s => s ≠ ""

/-- The three write-free components of _sync_existing's decision
(src/sync_engine.py:443-459): the two changed flags and the hash-based
skip condition. -/
def hashSkip (env : Env) (p : String) (r : RemoteInfo) (entry : FileEntry)
    (remote_changed local_changed : Bool) : Bool :=
  ((remote_changed || local_changed) && !(remote_changed && local_changed)) &&
  (r.remote_hash != "" && r.remote_hash == entry.remote_hash.getD "") &&
  (hashTruthy (env.localHash p) &&
    (env.localHash p).getD "" == entry.local_hash.getD "")

/-- The successful-download update shared by the pull paths: write the
file locally, then set_file_entry with the freshly observed local mtime
(the recorded remote mtime argument varies by caller). -/
def applyDownload (env : Env) (w : World) (p : String) (size : Nat)
    (recorded_remote_mtime : String) (local_hash remote_hash : Option String) :
    World :=
  { remote := w.remote
    fsLocal := mapInsert w.fsLocal p ⟨size, env.dlMtime p⟩
    state := { w.state with
      files := mapInsert w.state.files p
        (setFileEntry env.now size (env.dlMtime p) recorded_remote_mtime
          local_hash remote_hash) } }

/-- _handle_conflict (src/sync_engine.py:496-524): rename the local file
to the conflict name, mark recently-synced, download the remote version. -/
def handleConflict (env : Env) (w : World) (p : String) (r : RemoteInfo) :
    World × List Event :=
  match mapLookup w.fsLocal p with
  | none => (w, [])
  | some li =>
      let conflict_rel := conflictName p env.conflictStamp
      let fs1 := mapInsert (mapErase w.fsLocal p) conflict_rel li
      let ev := [Event.renameConflict p conflict_rel, Event.mark p,
        Event.download p]
      if env.downloadOk p then
        (applyDownload env { w with fsLocal := fs1 } p r.size
          r.lastModifiedDateTime (env.dlHash p) (some r.remote_hash), ev)
      else ({ w with fsLocal := fs1 }, ev)

/-- Which branch of _sync_existing runs. -/
inductive SyncDecision where
  | missingEntry
  | skip
  | conflict
  | pull
  | push
  | noop
  deriving Repr, DecidableEq

/-- The decision chain of _sync_existing (src/sync_engine.py:435-461 and
the elif guards at 461-477) on the looked-up entry: the two changed
flags, the hash-based skip, then conflict, pull, push, or nothing. -/
def entryDecision (env : Env) (p : String) (r : RemoteInfo) (l : LocalInfo) :
    Option FileEntry → SyncDecision
  | none => .missingEntry
  | some entry =>
      let remote_changed : Bool := r.lastModifiedDateTime != entry.remote_mtime
      let local_changed : Bool := l.mtime != entry.local_mtime
      if hashSkip env p r entry remote_changed local_changed then .skip
      else if remote_changed && local_changed then .conflict
      else if remote_changed && !local_changed then .pull
      else if local_changed && !remote_changed then .push
      else .noop

/-- The decision on the tracked files map. -/
def syncDecision (env : Env) (filesM : List (String × FileEntry))
    (p : String) (r : RemoteInfo) (l : LocalInfo) : SyncDecision :=
  entryDecision env p r l (mapLookup filesM p)

/-- _sync_existing (src/sync_engine.py:433-493), dispatching on the
decision chain. -/
def syncExisting (env : Env) (w : World) (p : String) (r : RemoteInfo)
    (l : LocalInfo) : World × List Event :=
  match syncDecision env w.state.files p r l with
  | .missingEntry => (w, [])
  | .skip =>
      -- src/sync_engine.py:455-459: refresh mtimes and hashes only
      ({ w with state := { w.state with
          files := mapInsert w.state.files p
            (setFileEntry env.now r.size l.mtime r.lastModifiedDateTime
              (env.localHash p) (some r.remote_hash)) } }, [])
  | .conflict => handleConflict env w p r
  | .pull =>
      -- pull (src/sync_engine.py:463-476)
      let ev := [Event.mark p, Event.download p]
      if env.downloadOk p then
        (applyDownload env w p r.size r.lastModifiedDateTime (env.dlHash p)
          (some r.remote_hash), ev)
      else (w, ev)
  | .push =>
      -- push (src/sync_engine.py:477-493)
      let ev := [Event.upload p]
      match env.uploadRes p with
      | none => (w, ev)
      | some res =>
          let new_remote_mtime :=
            res.lastModifiedDateTime.getD r.lastModifiedDateTime
          let rh := uploadResultHash res
          ({ remote := mapInsert w.remote p
               ⟨l.size, res.lastModifiedDateTime.getD "", rh⟩
             fsLocal := w.fsLocal
             state := { w.state with
               files := mapInsert w.state.files p
                 (setFileEntry env.now l.size l.mtime new_remote_mtime
                   (env.localHash p) (some rh)) } }, ev)
  | .noop => (w, [])

/-- _handle_local_deleted_during_poll (src/sync_engine.py:555-560): the
delete_remote return value is ignored; the entry is removed
unconditionally. -/
def localDeleted (env : Env) (w : World) (p : String) : World × List Event :=
  ({ remote := if env.deleteOk p then mapErase w.remote p else w.remote
     fsLocal := w.fsLocal
     state := { w.state with files := mapErase w.state.files p } },
    [Event.deleteRemote p])

/-- _handle_remote_deleted_during_poll (src/sync_engine.py:563-579). -/
def remoteDeleted (w : World) (p : String) : World × List Event :=
  ({ remote := w.remote
     fsLocal := mapErase w.fsLocal p
     state := { w.state with files := mapErase w.state.files p } },
    [Event.removeLocal p])

/-- _download_new (src/sync_engine.py:582-597). -/
def downloadNew (env : Env) (w : World) (p : String) (r : RemoteInfo) :
    World × List Event :=
  let ev := [Event.mark p, Event.download p]
  if env.downloadOk p then
    (applyDownload env w p r.size r.lastModifiedDateTime (env.dlHash p)
      (some r.remote_hash), ev)
  else (w, ev)

/-- _upload_new (src/sync_engine.py:600-617). -/
def uploadNew (env : Env) (w : World) (p : String) (l : LocalInfo) :
    World × List Event :=
  let ev := [Event.upload p]
  match env.uploadRes p with
  | none => (w, ev)
  | some res =>
      let remote_mtime := res.lastModifiedDateTime.getD ""
      let rh := uploadResultHash res
      ({ remote := mapInsert w.remote p ⟨l.size, remote_mtime, rh⟩
         fsLocal := w.fsLocal
         state := { w.state with
           files := mapInsert w.state.files p
             (setFileEntry env.now l.size l.mtime remote_mtime
               (env.localHash p) (some rh)) } }, ev)

/-- One action of the pass (the body of _exec_action,
src/sync_engine.py:220-244, dispatching to the handlers at 433-617). -/
def execAction (env : Env) (w : World) : SyncAction → World × List Event
  | .sync_existing p r l => syncExisting env w p r l
  | .local_deleted p => localDeleted env w p
  | .remote_deleted p => remoteDeleted w p
  | .download_new p r => downloadNew env w p r
  | .upload_new p l => uploadNew env w p l

/-- Sequential execution of the action list.  The thread pool of
src/sync_engine.py:246-262 runs actions for distinct paths; the claims
below are settled on the sequential interleaving. -/
def runActions (env : Env) (w : World) : List SyncAction → World × List Event
  | [] => (w, [])
  | a :: rest =>
      let we := execAction env w a
      let rest2 := runActions env we.1 rest
      (rest2.1, we.2 ++ rest2.2)

/-! ## Retry queue (src/state_db.py:78-109, src/sync_engine.py:375-430) -/

/-- state_db._next_retry_time: exponential backoff capped at 1800 s. -/
def nextRetryTime (nowTs attempts : Nat) : Nat :=
  nowTs + min (2 ^ attempts * 30) 1800

/-- state_db.add_retry: update the first queue element with the same
(path, action), else append a fresh item with attempts 1. -/
def addRetry (nowTs : Nat) (queue : List RetryItem) (path action error : String) :
    List RetryItem :=
  match queue with
  | [] => [{ path := path, action := action, attempts := 1
             next_retry := nextRetryTime nowTs 1, error := error }]
  | item :: rest =>
      if item.path = path ∧ item.action = action then
        { item with attempts := item.attempts + 1
                    error := error
                    next_retry := nextRetryTime nowTs (item.attempts + 1) } :: rest
      else item :: addRetry nowTs rest path action error

/-- state_db.remove_retry: delete every matching row. -/
def removeRetry (queue : List RetryItem) (path action : String) : List RetryItem :=
  queue.filter (fun item => !(item.path = path ∧ item.action = action : Bool))

/-- A failed retry attempt (src/sync_engine.py:419-428): bump attempts,
recompute next_retry, keep in the queue.  In the exception-free model the
recorded error text is unchanged. -/
def retryFail (env : Env) (item : RetryItem) : RetryItem :=
  { item with attempts := item.attempts + 1
              next_retry := nextRetryTime env.nowTs (item.attempts + 1) }

/-- One due retry attempt (src/sync_engine.py:395-428).  Returns the
updated world and none when the item is dropped on success, or the
re-enqueued item on failure. -/
def attemptRetry (env : Env) (w : World) (item : RetryItem) :
    World × Option RetryItem :=
  if item.action = "upload_new" ∨ item.action = "upload" then
    match mapLookup w.fsLocal item.path with
    | some li =>
        match env.uploadRes item.path with
        | some res =>
            -- src/sync_engine.py:400-407: set_file_entry without hashes
            let rm := res.lastModifiedDateTime.getD ""
            let e2 := setFileEntry env.now li.size li.mtime rm none none
            ({ remote := mapInsert w.remote item.path
                 ⟨li.size, rm, uploadResultHash res⟩
               fsLocal := w.fsLocal
               state := { w.state with
                 files := mapInsert w.state.files item.path e2 } }, none)
        | none => (w, some (retryFail env item))
    | none => (w, some (retryFail env item))
  else if item.action = "download_new" ∨ item.action = "download" then
    -- src/sync_engine.py:408-411: on success only a log line; the state
    -- entry is not updated.
    if env.downloadOk item.path then
      ({ w with fsLocal :=
           (mapInsert w.fsLocal item.path
             ⟨env.dlSize item.path, env.dlMtime item.path⟩) }, none)
    else (w, some (retryFail env item))
  else if item.action = "local_deleted" ∨ item.action = "delete" then
    if env.deleteOk item.path then
      ({ remote := mapErase w.remote item.path
         fsLocal := w.fsLocal
         state := { w.state with
           files := mapErase w.state.files item.path } }, none)
    else (w, some (retryFail env item))
  else (w, some (retryFail env item))

/-- The loop of _process_retry_queue (src/sync_engine.py:383-428):
items at 5 or more attempts are dropped with a terminal retry_failed
history event; items not yet due are kept untouched; due items are
attempted. -/
def processRetryItems (env : Env) (w : World) :
    List RetryItem → World × List RetryItem × List Event
  | [] => (w, [], [])
  | item :: rest =>
      if item.attempts ≥ 5 then
        ((processRetryItems env w rest).1,
          (processRetryItems env w rest).2.1,
          Event.retryFailed item.path item.action ::
            (processRetryItems env w rest).2.2)
      else if env.nowTs < item.next_retry then
        ((processRetryItems env w rest).1,
          item :: (processRetryItems env w rest).2.1,
          (processRetryItems env w rest).2.2)
      else
        match (attemptRetry env w item).2 with
        | none => processRetryItems env (attemptRetry env w item).1 rest
        | some item2 =>
            ((processRetryItems env (attemptRetry env w item).1 rest).1,
              item2 ::
                (processRetryItems env (attemptRetry env w item).1 rest).2.1,
              (processRetryItems env (attemptRetry env w item).1 rest).2.2)

/-- _process_retry_queue (src/sync_engine.py:375-430): early return on an
empty queue, else run the loop and store the remaining items. -/
def processRetryQueue (env : Env) (w : World) : World × List Event :=
  match w.state.retry_queue with
  | [] => (w, [])
  | queue =>
      let r := processRetryItems env w queue
      ({ r.1 with state := { r.1.state with retry_queue := r.2.1 } }, r.2.2)

/-! ## The full reconciliation pass (src/sync_engine.py:149-268) -/

/-- full_sync on the happy path (remote listing succeeds): process the
retry queue, list remote, walk local, classify, execute, stamp
last_poll.  load_state/save_state bracketing is the identity on the
in-memory state in the exception-free model. -/
def fullSyncWorld (cfg : Config) (env : Env) (w : World) : World × List Event :=
  let wr := processRetryQueue env w
  let localM := localWalk cfg wr.1.fsLocal
  let acts := buildActions cfg wr.1.remote localM wr.1.state.files
  let run := runActions env wr.1 acts
  ({ run.1 with state := { run.1.state with last_poll := some env.now } },
    wr.2 ++ run.2)

/-- The action list a full pass over world w executes, after retry-queue
processing (src/sync_engine.py:199-215). -/
def passActions (cfg : Config) (env : Env) (w : World) : List SyncAction :=
  let wr := processRetryQueue env w
  buildActions cfg wr.1.remote (localWalk cfg wr.1.fsLocal) wr.1.state.files

/-! ## Delta sync (src/sync_engine.py:271-372) -/

/-- One change record produced by onedrive_api.list_remote_changes
(src/onedrive_api.py:177-185); every key is always present. -/
structure Change where
  path : String
  size : Nat
  lastModifiedDateTime : String
  remote_hash : String
  deleted : Bool
  is_folder : Bool
  deriving Repr, DecidableEq

/-- Python truthiness of an optional string (None and the empty string
are falsy). -/
def pyTruthyStr : Option String → Bool
  | none => false
  | some s => s != ""

/-- The per-change body of delta_sync (src/sync_engine.py:300-360). -/
def processChange (cfg : Config) (env : Env) (w : World) (change : Change) :
    World × List Event :=
  let rel_path := change.path
  if rel_path = "" ∨ change.is_folder then (w, [])
  else if shouldIgnore cfg rel_path then (w, [])
  else if !isInSyncScope cfg rel_path then (w, [])
  else if change.deleted then
    let ev := if (mapLookup w.fsLocal rel_path).isSome
      then [Event.removeLocal rel_path] else []
    ({ w with fsLocal := mapErase w.fsLocal rel_path
              state := { w.state with
                files := mapErase w.state.files rel_path } }, ev)
  else
    match mapLookup w.state.files rel_path, mapLookup w.fsLocal rel_path with
    | some entry, some li =>
        if li.mtime != entry.local_mtime then
          -- _handle_conflict_delta (src/sync_engine.py:527-552)
          let conflict_rel := conflictName rel_path env.conflictStamp
          let fs1 := mapInsert (mapErase w.fsLocal rel_path) conflict_rel li
          let ev := [Event.renameConflict rel_path conflict_rel,
            Event.mark rel_path, Event.download rel_path]
          if env.downloadOk rel_path then
            let e2 := setFileEntry env.now change.size (env.dlMtime rel_path)
              change.lastModifiedDateTime none (some change.remote_hash)
            ({ remote := w.remote
               fsLocal := mapInsert fs1 rel_path
                 ⟨change.size, env.dlMtime rel_path⟩
               state := { w.state with
                 files := mapInsert w.state.files rel_path e2 } }, ev)
          else ({ w with fsLocal := fs1 }, ev)
        else
          -- download the remote version (src/sync_engine.py:342-358)
          let ev := [Event.mark rel_path, Event.download rel_path]
          if env.downloadOk rel_path then
            let e2 := setFileEntry env.now change.size (env.dlMtime rel_path)
              change.lastModifiedDateTime none (some change.remote_hash)
            ({ remote := w.remote
               fsLocal := mapInsert w.fsLocal rel_path
                 ⟨change.size, env.dlMtime rel_path⟩
               state := { w.state with
                 files := mapInsert w.state.files rel_path e2 } }, ev)
          else (w, ev)
    | _, _ =>
        let ev := [Event.mark rel_path, Event.download rel_path]
        if env.downloadOk rel_path then
          let e2 := setFileEntry env.now change.size (env.dlMtime rel_path)
            change.lastModifiedDateTime none (some change.remote_hash)
          ({ remote := w.remote
             fsLocal := mapInsert w.fsLocal rel_path
               ⟨change.size, env.dlMtime rel_path⟩
             state := { w.state with
               files := mapInsert w.state.files rel_path e2 } }, ev)
        else (w, ev)

/-- Fold of processChange over the change list. -/
def runChanges (cfg : Config) (env : Env) (w : World) :
    List Change → World × List Event
  | [] => (w, [])
  | c :: rest =>
      let r1 := processChange cfg env w c
      let r2 := runChanges cfg env r1.1 rest
      (r2.1, r1.2 ++ r2.2)

/-- delta_sync (src/sync_engine.py:271-372).  The second component is
true when the call fell back to full reconciliation.  The result of the
list_remote_changes call is an input: error for a raised exception, else
the change list and the optional new delta cursor. -/
def deltaSync (cfg : Config) (env : Env) (w : World)
    (changesRes : Except Unit (List Change × Option String)) :
    World × Bool × List Event :=
  if !pyTruthyStr w.state.delta_link then
    let r := fullSyncWorld cfg env w
    (r.1, true, r.2)
  else
    match changesRes with
    | .error _ =>
        let r := fullSyncWorld cfg env w
        (r.1, true, r.2)
    | .ok (_, none) =>
        let r := fullSyncWorld cfg env w
        (r.1, true, r.2)
    | .ok (changes, some newLink) =>
        let r := runChanges cfg env w changes
        ({ r.1 with state := { r.1.state with
             delta_link := some newLink
             last_poll := some env.now } }, false, r.2)

/-! ## State store on disk (src/state_db.py:11-49)

json.load returns an arbitrary decoded JSON value; the file system is an
association list from path to document.  A document is either a decoded
JSON value or unparseable bytes. -/

/-- A decoded JSON value. -/
inductive JsonValue where
  | null
  | bool (b : Bool)
  | num (n : Int)
  | str (s : String)
  | arr (elems : List JsonValue)
  | obj (fields : List (String × JsonValue))
  deriving Repr

/-- File contents: either bytes that json.load parses to a value, or
bytes on which it raises JSONDecodeError. -/
inductive Doc where
  | junk (raw : String)
  | json (v : JsonValue)
  deriving Repr

/-- The file system seen by state_db. -/
abbrev Fs := List (String × Doc)

/-- Substring test (Python in on strings). -/
def strContainsSub (s sub : String) : Bool :=
  s.data.tails.any (fun t => charListInit sub.data t)

/-- Python equality of a decoded JSON value against a string constant: a
str compares by value, every other decoded type is unequal. -/
def jsonIsStr (x : JsonValue) (k : String) : Bool :=
  match x with
  | .str s => s = k
  | _ => false

/-- Python key not in state for each decoded type: key lookup on a
dict, element equality on a list, substring on a str, TypeError on
null/bool/num. -/
def pyContains (v : JsonValue) (k : String) : Except Unit Bool :=
  match v with
  | .obj fields => .ok (mapLookup fields k).isSome
  | .arr xs => .ok (xs.any (fun x => jsonIsStr x k))
  | .str s => .ok (strContainsSub s k)
  | _ => .error ()

/-- Python state[k] = x: only a dict supports string-key assignment;
list and str item assignment with a string key raises TypeError. -/
def pySetKey (v : JsonValue) (k : String) (x : JsonValue) :
    Except Unit JsonValue :=
  match v with
  | .obj fields => .ok (.obj (mapInsert fields k x))
  | _ => .error ()

/-- One line of src/state_db.py:18-25: if k not in state, assign the
default. -/
def fillKey (v : JsonValue) (k : String) (dflt : JsonValue) :
    Except Unit JsonValue := do
  let c ← pyContains v k
  if c then pure v else pySetKey v k dflt

/-- state_db._empty_state (src/state_db.py:112-113). -/
def emptyStateJson : JsonValue :=
  .obj [("files", .obj []), ("last_poll", .null),
        ("retry_queue", .arr []), ("delta_link", .null)]

/-- state_db.load_state (src/state_db.py:11-32).  A missing file yields
the empty state; unparseable contents are backed up with shutil.copy2 to
path + ".corrupt." + stamp (the original file is left in place) and the
empty state is returned; parsed contents get the four top-level defaults
filled in.  A TypeError from the membership test or the assignment (a
parsed document that is not a dict) propagates as an error. -/
def loadState (fs : Fs) (path stamp : String) :
    Except Unit (Fs × JsonValue) :=
  match mapLookup fs path with
  | none => .ok (fs, emptyStateJson)
  | some (.junk raw) =>
      .ok (mapInsert fs (path ++ ".corrupt." ++ stamp) (.junk raw),
        emptyStateJson)
  | some (.json v) => do
      let v1 ← fillKey v "files" (.obj [])
      let v2 ← fillKey v1 "last_poll" .null
      let v3 ← fillKey v2 "retry_queue" (.arr [])
      let v4 ← fillKey v3 "delta_link" .null
      pure (fs, v4)

/-! ## Atomic save (src/state_db.py:35-49) -/

/-- Primitive file-system steps save_state performs, in order. -/
inductive FsOp where
  | createEmpty (p : String)
  | writeDoc (p : String) (d : Doc)
  | unlink (p : String)
  | replaceFile (src dst : String)
  deriving Repr

/-- Effect of one step.  os.replace is a single atomic step. -/
def applyOp (fs : Fs) : FsOp → Fs
  | .createEmpty p => mapInsert fs p (.junk "")
  | .writeDoc p d => mapInsert fs p d
  | .unlink p => mapErase fs p
  | .replaceFile src dst =>
      match mapLookup fs src with
      | some d => mapInsert (mapErase fs src) dst d
      | none => fs

/-- Apply a sequence of steps. -/
def applyOps (fs : Fs) (ops : List FsOp) : Fs :=
  match ops with
  | [] => fs
  | op :: rest => applyOps (applyOp fs op) rest

/-- The step sequence of save_state (src/state_db.py:35-49): mkstemp in
the target directory, json.dump into the temp file, os.replace over the
target; when serialization fails after writing halfWritten bytes, the
except branch unlinks the temp file and re-raises. -/
def saveStateOps (path tmp : String) (st : JsonValue) (serOk : Bool)
    (halfWritten : String) : List FsOp :=
  if serOk then
    [.createEmpty tmp, .writeDoc tmp (.json st), .replaceFile tmp path]
  else
    [.createEmpty tmp, .writeDoc tmp (.junk halfWritten), .unlink tmp]

/-- state_db.save_state: the resulting file system and the propagated
error (some () exactly when serialization failed). -/
def saveState (fs : Fs) (path tmp : String) (st : JsonValue) (serOk : Bool)
    (halfWritten : String) : Fs × Option Unit :=
  (applyOps fs (saveStateOps path tmp st serOk halfWritten),
    if serOk then none else some ())

/-! ## Shared lemmas about the action pipeline -/

theorem mapLookup_mem_keys {α : Type} (m : List (String × α)) (p : String)
    (v : α) (h : mapLookup m p = some v) : p ∈ m.map Prod.fst := by
  induction m with
  | nil => simp [mapLookup] at h
  | cons kv rest ih =>
      obtain ⟨k1, v1⟩ := kv
      by_cases hk : k1 = p
      · subst hk
        simp
      · simp only [mapLookup, if_neg hk] at h
        simpa using Or.inr (ih h)

theorem mem_insertSorted (x y : String) (l : List String) :
    y ∈ insertSorted x l ↔ y = x ∨ y ∈ l := by
  induction l with
  | nil => simp [insertSorted]
  | cons z zs ih =>
      by_cases h : x ≤ z
      · simp [insertSorted, h]
      · simp [insertSorted, h, ih]
        tauto

theorem mem_sortPaths (y : String) (l : List String) :
    y ∈ sortPaths l ↔ y ∈ l := by
  induction l with
  | nil => simp [sortPaths]
  | cons z zs ih => simp [sortPaths, mem_insertSorted, ih]

theorem nodup_insertSorted (x : String) (l : List String)
    (hx : x ∉ l) (hl : l.Nodup) : (insertSorted x l).Nodup := by
  induction l with
  | nil => simp [insertSorted]
  | cons z zs ih =>
      by_cases h : x ≤ z
      · simp only [insertSorted, if_pos h]
        exact List.nodup_cons.mpr ⟨hx, hl⟩
      · simp only [insertSorted, if_neg h]
        rw [List.nodup_cons] at hl ⊢
        constructor
        · intro hz
          rcases (mem_insertSorted x z zs).mp hz with h1 | h1
          · exact hx (h1 ▸ List.mem_cons_self z zs)
          · exact hl.1 h1
        · exact ih (fun hmem => hx (List.mem_cons_of_mem z hmem)) hl.2

theorem nodup_sortPaths (l : List String) (hl : l.Nodup) :
    (sortPaths l).Nodup := by
  induction l with
  | nil => simp [sortPaths]
  | cons z zs ih =>
      rw [List.nodup_cons] at hl
      exact nodup_insertSorted z (sortPaths zs)
        (fun h => hl.1 ((mem_sortPaths z zs).mp h)) (ih hl.2)

theorem classifyAt_path (remoteM : List (String × RemoteInfo))
    (localM : List (String × LocalInfo)) (filesM : List (String × FileEntry))
    (p : String) (a : SyncAction) (h : classifyAt remoteM localM filesM p = some a) :
    a.path = p := by
  unfold classifyAt at h
  rcases hr : mapLookup remoteM p with _ | r <;>
    rcases hl : mapLookup localM p with _ | l <;>
    rcases hs : mapLookup filesM p with _ | e <;>
    simp [hr, hl, hs] at h <;> simp [← h, SyncAction.path]

/-- For a duplicate-free path list, the actions about one path are
exactly the classification of that path (when listed). -/
theorem filterMap_classify_filter (remoteM : List (String × RemoteInfo))
    (localM : List (String × LocalInfo)) (filesM : List (String × FileEntry))
    (l : List String) (hl : l.Nodup) (p : String) :
    (l.filterMap (classifyAt remoteM localM filesM)).filter
        (fun a => a.path == p) =
      if p ∈ l then (classifyAt remoteM localM filesM p).toList else [] := by
  induction l with
  | nil => simp
  | cons q qs ih =>
      rw [List.nodup_cons] at hl
      by_cases hq : q = p
      · subst hq
        rcases hc : classifyAt remoteM localM filesM q with _ | a
        · simp [List.filterMap_cons, hc, ih hl.2, if_neg hl.1]
        · have hpath := classifyAt_path _ _ _ _ _ hc
          simp [List.filterMap_cons, hc, List.filter_cons, hpath, ih hl.2,
            if_neg hl.1]
      · have hpq : ¬p = q := fun h => hq h.symm
        rcases hc : classifyAt remoteM localM filesM q with _ | a
        · simp [List.filterMap_cons, hc, ih hl.2, hpq]
        · have hpath := classifyAt_path _ _ _ _ _ hc
          have hne : (a.path == p) = false := by
            simp [hpath, hq]
          simp [List.filterMap_cons, hc, List.filter_cons, hne, ih hl.2, hpq]

/-- The in-scope, duplicate-free, sorted path list of one pass. -/
def passPaths (cfg : Config) (remoteM : List (String × RemoteInfo))
    (localM : List (String × LocalInfo))
    (filesM : List (String × FileEntry)) : List String :=
  sortPaths (((remoteM.map Prod.fst ++ localM.map Prod.fst ++
    filesM.map Prod.fst).dedup).filter (fun p => isInSyncScope cfg p))

theorem buildActions_eq_filterMap (cfg : Config)
    (remoteM : List (String × RemoteInfo)) (localM : List (String × LocalInfo))
    (filesM : List (String × FileEntry)) :
    buildActions cfg remoteM localM filesM =
      (passPaths cfg remoteM localM filesM).filterMap
        (classifyAt remoteM localM filesM) := rfl

theorem nodup_passPaths (cfg : Config) (remoteM : List (String × RemoteInfo))
    (localM : List (String × LocalInfo)) (filesM : List (String × FileEntry)) :
    (passPaths cfg remoteM localM filesM).Nodup :=
  nodup_sortPaths _ (List.Nodup.filter _ (List.nodup_dedup _))

theorem mem_passPaths (cfg : Config) (remoteM : List (String × RemoteInfo))
    (localM : List (String × LocalInfo)) (filesM : List (String × FileEntry))
    (p : String) :
    p ∈ passPaths cfg remoteM localM filesM ↔
      (p ∈ remoteM.map Prod.fst ∨ p ∈ localM.map Prod.fst ∨
        p ∈ filesM.map Prod.fst) ∧ isInSyncScope cfg p = true := by
  unfold passPaths
  rw [mem_sortPaths, List.mem_filter, List.mem_dedup]
  simp [or_assoc]

theorem buildActions_filter_path (cfg : Config)
    (remoteM : List (String × RemoteInfo)) (localM : List (String × LocalInfo))
    (filesM : List (String × FileEntry)) (p : String) :
    (buildActions cfg remoteM localM filesM).filter (fun a => a.path == p) =
      if p ∈ passPaths cfg remoteM localM filesM
      then (classifyAt remoteM localM filesM p).toList else [] := by
  rw [buildActions_eq_filterMap]
  exact filterMap_classify_filter _ _ _ _ (nodup_passPaths cfg _ _ _) p

theorem mem_buildActions (cfg : Config) (remoteM : List (String × RemoteInfo))
    (localM : List (String × LocalInfo)) (filesM : List (String × FileEntry))
    (a : SyncAction) (h : a ∈ buildActions cfg remoteM localM filesM) :
    a.path ∈ passPaths cfg remoteM localM filesM ∧
      classifyAt remoteM localM filesM a.path = some a := by
  rw [buildActions_eq_filterMap] at h
  obtain ⟨p, hp, hc⟩ := List.mem_filterMap.mp h
  have := classifyAt_path _ _ _ _ _ hc
  subst this
  exact ⟨hp, hc⟩

theorem mapLookup_localWalk (cfg : Config) (m : List (String × LocalInfo))
    (p : String) :
    mapLookup (localWalk cfg m) p =
      if !shouldIgnore cfg p && isInSyncScope cfg p then mapLookup m p
      else none := by
  induction m with
  | nil => simp [localWalk, mapLookup]
  | cons kv rest ih =>
      obtain ⟨q, li⟩ := kv
      by_cases hq : q = p
      · subst hq
        by_cases hc : !shouldIgnore cfg q && isInSyncScope cfg q
        · simp [localWalk, hc, mapLookup, ih]
        · simp [localWalk, hc, mapLookup, ih]
      · by_cases hc : !shouldIgnore cfg q && isInSyncScope cfg q
        · simp [localWalk, hc, mapLookup, hq, ih]
        · simp [localWalk, hc, mapLookup, hq, ih]

theorem applyDownload_files_frame (env : Env) (w : World) (p : String)
    (size : Nat) (rm : String) (lh rh : Option String) (q : String)
    (h : p ≠ q) :
    mapLookup (applyDownload env w p size rm lh rh).state.files q =
      mapLookup w.state.files q := by
  simp [applyDownload, mapLookup_insert_ne _ _ _ _ h]

theorem handleConflict_files_frame (env : Env) (w : World) (p : String)
    (r : RemoteInfo) (q : String) (h : p ≠ q) :
    mapLookup ((handleConflict env w p r).1).state.files q =
      mapLookup w.state.files q := by
  unfold handleConflict
  split
  · rfl
  · split
    · exact applyDownload_files_frame env _ p _ _ _ _ q h
    · rfl

theorem syncExisting_files_frame (env : Env) (w : World) (p : String)
    (r : RemoteInfo) (l : LocalInfo) (q : String) (h : p ≠ q) :
    mapLookup ((syncExisting env w p r l).1).state.files q =
      mapLookup w.state.files q := by
  unfold syncExisting
  rcases hd : syncDecision env w.state.files p r l
  · simp [hd]
  · simp [hd, mapLookup_insert_ne _ _ _ _ h]
  · simp only [hd]
    exact handleConflict_files_frame env w p r q h
  · simp only [hd]
    split
    · exact applyDownload_files_frame env _ p _ _ _ _ q h
    · rfl
  · simp only [hd]
    rcases env.uploadRes p with _ | res
    · rfl
    · simp [mapLookup_insert_ne _ _ _ _ h]
  · simp [hd]

theorem downloadNew_files_frame (env : Env) (w : World) (p : String)
    (r : RemoteInfo) (q : String) (h : p ≠ q) :
    mapLookup ((downloadNew env w p r).1).state.files q =
      mapLookup w.state.files q := by
  unfold downloadNew
  split
  · exact applyDownload_files_frame env w p _ _ _ _ q h
  · rfl

theorem uploadNew_files_frame (env : Env) (w : World) (p : String)
    (l : LocalInfo) (q : String) (h : p ≠ q) :
    mapLookup ((uploadNew env w p l).1).state.files q =
      mapLookup w.state.files q := by
  unfold uploadNew
  rcases env.uploadRes p with _ | res
  · rfl
  · simp [mapLookup_insert_ne _ _ _ _ h]

/-- Every action writes the files map only at its own path. -/
theorem execAction_files_frame (env : Env) (w : World) (a : SyncAction)
    (p : String) (h : a.path ≠ p) :
    mapLookup ((execAction env w a).1).state.files p =
      mapLookup w.state.files p := by
  cases a with
  | sync_existing q r l =>
      exact syncExisting_files_frame env w q r l p h
  | local_deleted q =>
      replace h : q ≠ p := h
      simp [execAction, localDeleted, mapLookup_erase_ne _ _ _ h]
  | remote_deleted q =>
      replace h : q ≠ p := h
      simp [execAction, remoteDeleted, mapLookup_erase_ne _ _ _ h]
  | download_new q r =>
      exact downloadNew_files_frame env w q r p h
  | upload_new q l =>
      exact uploadNew_files_frame env w q l p h

theorem runActions_files_frame (env : Env) (w : World) (acts : List SyncAction)
    (p : String) (h : ∀ a ∈ acts, a.path ≠ p) :
    mapLookup ((runActions env w acts).1).state.files p =
      mapLookup w.state.files p := by
  induction acts generalizing w with
  | nil => rfl
  | cons a rest ih =>
      simp only [runActions]
      rw [ih _ (fun b hb => h b (List.mem_cons_of_mem a hb)),
        execAction_files_frame env w a p (h a (List.mem_cons_self a rest))]

/-! ## Preservation of the delta cursor and the retry queue by a pass -/

theorem handleConflict_link_queue (env : Env) (w : World) (p : String)
    (r : RemoteInfo) :
    ((handleConflict env w p r).1).state.delta_link = w.state.delta_link ∧
    ((handleConflict env w p r).1).state.retry_queue = w.state.retry_queue := by
  unfold handleConflict
  rcases mapLookup w.fsLocal p with _ | li
  · exact ⟨rfl, rfl⟩
  · simp only []
    split
    · exact ⟨rfl, rfl⟩
    · exact ⟨rfl, rfl⟩

theorem syncExisting_link_queue (env : Env) (w : World) (p : String)
    (r : RemoteInfo) (l : LocalInfo) :
    ((syncExisting env w p r l).1).state.delta_link = w.state.delta_link ∧
    ((syncExisting env w p r l).1).state.retry_queue = w.state.retry_queue := by
  unfold syncExisting
  rcases hd : syncDecision env w.state.files p r l
  · simp [hd]
  · simp [hd]
  · simp only [hd]
    exact handleConflict_link_queue env w p r
  · simp only [hd]
    split
    · exact ⟨rfl, rfl⟩
    · exact ⟨rfl, rfl⟩
  · simp only [hd]
    rcases env.uploadRes p with _ | res
    · exact ⟨rfl, rfl⟩
    · exact ⟨rfl, rfl⟩
  · simp [hd]

theorem downloadNew_link_queue (env : Env) (w : World) (p : String)
    (r : RemoteInfo) :
    ((downloadNew env w p r).1).state.delta_link = w.state.delta_link ∧
    ((downloadNew env w p r).1).state.retry_queue = w.state.retry_queue := by
  unfold downloadNew
  split
  · exact ⟨rfl, rfl⟩
  · exact ⟨rfl, rfl⟩

theorem uploadNew_link_queue (env : Env) (w : World) (p : String)
    (l : LocalInfo) :
    ((uploadNew env w p l).1).state.delta_link = w.state.delta_link ∧
    ((uploadNew env w p l).1).state.retry_queue = w.state.retry_queue := by
  unfold uploadNew
  rcases env.uploadRes p with _ | res
  · exact ⟨rfl, rfl⟩
  · exact ⟨rfl, rfl⟩

theorem execAction_link_queue (env : Env) (w : World) (a : SyncAction) :
    ((execAction env w a).1).state.delta_link = w.state.delta_link ∧
    ((execAction env w a).1).state.retry_queue = w.state.retry_queue := by
  cases a with
  | sync_existing p r l => exact syncExisting_link_queue env w p r l
  | local_deleted p => exact ⟨rfl, rfl⟩
  | remote_deleted p => exact ⟨rfl, rfl⟩
  | download_new p r => exact downloadNew_link_queue env w p r
  | upload_new p l => exact uploadNew_link_queue env w p l

theorem runActions_link_queue (env : Env) (w : World) (acts : List SyncAction) :
    ((runActions env w acts).1).state.delta_link = w.state.delta_link ∧
    ((runActions env w acts).1).state.retry_queue = w.state.retry_queue := by
  induction acts generalizing w with
  | nil => exact ⟨rfl, rfl⟩
  | cons a rest ih =>
      simp only [runActions]
      obtain ⟨h1, h2⟩ := execAction_link_queue env w a
      obtain ⟨h3, h4⟩ := ih (execAction env w a).1
      exact ⟨h3.trans h1, h4.trans h2⟩

theorem attemptRetry_link (env : Env) (w : World) (item : RetryItem) :
    ((attemptRetry env w item).1).state.delta_link = w.state.delta_link := by
  unfold attemptRetry
  split
  · rcases mapLookup w.fsLocal item.path with _ | li
    · rfl
    · simp only []
      rcases env.uploadRes item.path with _ | res
      · rfl
      · rfl
  · split
    · split
      · rfl
      · rfl
    · split
      · split
        · rfl
        · rfl
      · rfl

theorem processRetryItems_link (env : Env) (w : World) (queue : List RetryItem) :
    ((processRetryItems env w queue).1).state.delta_link =
      w.state.delta_link := by
  induction queue generalizing w with
  | nil => rfl
  | cons item rest ih =>
      unfold processRetryItems
      split
      · exact ih w
      · split
        · exact ih w
        · split
          · exact (ih _).trans (attemptRetry_link env w item)
          · exact (ih _).trans (attemptRetry_link env w item)

theorem processRetryQueue_link (env : Env) (w : World) :
    ((processRetryQueue env w).1).state.delta_link = w.state.delta_link := by
  unfold processRetryQueue
  rcases hq : w.state.retry_queue with _ | ⟨item, rest⟩
  · rfl
  · show ((processRetryItems env w (item :: rest)).1).state.delta_link = _
    rw [processRetryItems_link]

theorem fullSyncWorld_link (cfg : Config) (env : Env) (w : World) :
    ((fullSyncWorld cfg env w).1).state.delta_link = w.state.delta_link := by
  unfold fullSyncWorld
  simp only []
  rw [(runActions_link_queue env _ _).1, processRetryQueue_link]

/-- A pass over an empty retry queue starts from the unmodified world. -/
theorem processRetryQueue_empty (env : Env) (w : World)
    (hq : w.state.retry_queue = []) : processRetryQueue env w = (w, []) := by
  unfold processRetryQueue
  rw [hq]

theorem passActions_of_empty_queue (cfg : Config) (env : Env) (w : World)
    (hq : w.state.retry_queue = []) :
    passActions cfg env w =
      buildActions cfg w.remote (localWalk cfg w.fsLocal) w.state.files := by
  unfold passActions
  rw [processRetryQueue_empty env w hq]

theorem fullSyncWorld_files_of_empty_queue (cfg : Config) (env : Env)
    (w : World) (hq : w.state.retry_queue = []) :
    ((fullSyncWorld cfg env w).1).state.files =
      ((runActions env w (buildActions cfg w.remote (localWalk cfg w.fsLocal)
        w.state.files)).1).state.files := by
  unfold fullSyncWorld
  rw [processRetryQueue_empty env w hq]

/-! ## Concrete exemplars used by counterexamples and witnesses -/

/-- A remote listing entry. -/
def exRemote : RemoteInfo := ⟨5, "2024-01-01T00:00:00+00:00", "RH"⟩

/-- A walked local file. -/
def exLocal : LocalInfo := ⟨5, "2024-01-02T00:00:00+00:00"⟩

/-- A tracked state entry. -/
def exEntry : FileEntry :=
  setFileEntry "2024-01-01T00:00:00+00:00" 3 "LM0" "RM0" none none

/-- A benign environment: every transfer succeeds. -/
def exEnv : Env where
  downloadOk := fun _ => true
  uploadRes := fun _ => some ⟨some "UM", some "UH", none⟩
  deleteOk := fun _ => true
  dlMtime := fun _ => "2024-03-01T00:00:00+00:00"
  dlSize := fun _ => 7
  dlHash := fun _ => some "DH"
  localHash := fun _ => some "LH"
  now := "2024-03-01T00:00:01+00:00"
  nowTs := 1000
  conflictStamp := "20240301_000000"

/-- A world whose state tracks a file that is gone on both sides. -/
def exStateOnlyWorld : World :=
  { remote := []
    fsLocal := []
    state := { files := [("gone.txt", exEntry)], retry_queue := []
               delta_link := none, last_poll := none } }

/-- A world whose remote holds an ignored (but in-scope) file. -/
def exIgnoredWorld : World :=
  { remote := [(".DS_Store", exRemote)]
    fsLocal := []
    state := { files := [], retry_queue := []
               delta_link := none, last_poll := none } }

/-! ## C1 -/

/-- C1: for a path present in remote and local but absent from state, the
pass emits exactly one action for that path, and it is download_new (the
elif chain at src/sync_engine.py:212 tests the remote-untracked case
before the upload case), never upload_new. -/
theorem C1_remote_local_untracked_is_download (cfg : Config)
    (remoteM : List (String × RemoteInfo)) (localM : List (String × LocalInfo))
    (filesM : List (String × FileEntry)) (p : String) (r : RemoteInfo)
    (l : LocalInfo) (hr : mapLookup remoteM p = some r)
    (hl : mapLookup localM p = some l) (hs : mapLookup filesM p = none)
    (hscope : isInSyncScope cfg p = true) :
    (buildActions cfg remoteM localM filesM).filter (fun a => a.path == p) =
      [SyncAction.download_new p r] ∧
    SyncAction.upload_new p l ∉ buildActions cfg remoteM localM filesM := by
  have hmem : p ∈ passPaths cfg remoteM localM filesM :=
    (mem_passPaths cfg remoteM localM filesM p).mpr
      ⟨Or.inl (mapLookup_mem_keys remoteM p r hr), hscope⟩
  have hcl : classifyAt remoteM localM filesM p =
      some (.download_new p r) := by
    unfold classifyAt
    rw [hr, hl, hs]
  have hfil := buildActions_filter_path cfg remoteM localM filesM p
  rw [if_pos hmem, hcl] at hfil
  refine ⟨hfil, fun hin => ?_⟩
  have hup : SyncAction.upload_new p l ∈
      (buildActions cfg remoteM localM filesM).filter
        (fun a => a.path == p) :=
    List.mem_filter.mpr ⟨hin, by simp [SyncAction.path]⟩
  rw [hfil] at hup
  simp at hup

/-- C1 witness: the theorem applied at a concrete one-file overlap. -/
theorem C1_witness :
    (mapLookup [("a.txt", exRemote)] "a.txt" = some exRemote ∧
      mapLookup [("a.txt", exLocal)] "a.txt" = some exLocal ∧
      mapLookup ([] : List (String × FileEntry)) "a.txt" = none ∧
      isInSyncScope defaultConfig "a.txt" = true) ∧
    ((buildActions defaultConfig [("a.txt", exRemote)] [("a.txt", exLocal)]
        []).filter (fun a => a.path == "a.txt") =
      [SyncAction.download_new "a.txt" exRemote] ∧
    SyncAction.upload_new "a.txt" exLocal ∉
      buildActions defaultConfig [("a.txt", exRemote)] [("a.txt", exLocal)] []) :=
  ⟨⟨rfl, rfl, rfl, rfl⟩,
    C1_remote_local_untracked_is_download defaultConfig _ _ _ "a.txt" exRemote
      exLocal rfl rfl rfl rfl⟩

/-- C1 counterexample: at remote = local = a.txt, state empty, the pass
emits download_new and not upload_new, contradicting the claimed
upload_new action. -/
theorem C1_counterexample :
    SyncAction.upload_new "a.txt" exLocal ∉
      buildActions defaultConfig [("a.txt", exRemote)] [("a.txt", exLocal)] [] ∧
    SyncAction.download_new "a.txt" exRemote ∈
      buildActions defaultConfig [("a.txt", exRemote)] [("a.txt", exLocal)] [] := by
  have h : buildActions defaultConfig [("a.txt", exRemote)]
      [("a.txt", exLocal)] [] = [SyncAction.download_new "a.txt" exRemote] := rfl
  rw [h]
  refine ⟨fun hin => ?_, List.mem_singleton.mpr rfl⟩
  simp [exLocal, exRemote] at hin

/-! ## C2 -/

/-- C2 (amended): for a path in state but on neither side, the pass
emits no action for it (so no transfer), and the entry is retained
unchanged in files; the (absent, absent, tracked) row removes nothing. -/
theorem C2_state_only_entry_retained (cfg : Config) (env : Env) (w : World)
    (p : String) (e : FileEntry) (hq : w.state.retry_queue = [])
    (hs : mapLookup w.state.files p = some e)
    (hr : mapLookup w.remote p = none) (hl : mapLookup w.fsLocal p = none) :
    (∀ a ∈ passActions cfg env w, a.path ≠ p) ∧
    mapLookup ((fullSyncWorld cfg env w).1).state.files p = some e := by
  have hwalk : mapLookup (localWalk cfg w.fsLocal) p = none := by
    rw [mapLookup_localWalk]
    split
    · exact hl
    · rfl
  have hcl : classifyAt w.remote (localWalk cfg w.fsLocal) w.state.files p =
      none := by
    unfold classifyAt
    rw [hr, hwalk, hs]
  have hact : ∀ a ∈ buildActions cfg w.remote (localWalk cfg w.fsLocal)
      w.state.files, a.path ≠ p := by
    intro a ha hpa
    obtain ⟨_, hc⟩ := mem_buildActions _ _ _ _ a ha
    rw [hpa, hcl] at hc
    exact Option.noConfusion hc
  refine ⟨by rw [passActions_of_empty_queue cfg env w hq]; exact hact, ?_⟩
  rw [fullSyncWorld_files_of_empty_queue cfg env w hq,
    runActions_files_frame env w _ p hact]
  exact hs

/-- C2 witness: the theorem applied at the concrete state-only world. -/
theorem C2_witness :
    (exStateOnlyWorld.state.retry_queue = [] ∧
      mapLookup exStateOnlyWorld.state.files "gone.txt" = some exEntry ∧
      mapLookup exStateOnlyWorld.remote "gone.txt" = none ∧
      mapLookup exStateOnlyWorld.fsLocal "gone.txt" = none) ∧
    ((∀ a ∈ passActions defaultConfig exEnv exStateOnlyWorld,
        a.path ≠ "gone.txt") ∧
      mapLookup ((fullSyncWorld defaultConfig exEnv
        exStateOnlyWorld).1).state.files "gone.txt" = some exEntry) :=
  ⟨⟨rfl, rfl, rfl, rfl⟩,
    C2_state_only_entry_retained defaultConfig exEnv exStateOnlyWorld
      "gone.txt" exEntry rfl rfl rfl rfl⟩

/-- C2 counterexample: after a full pass over a world tracking gone.txt
(absent remotely and locally), the entry is still in files — it is not
removed — and the key is in neither the local tree nor the remote
listing, so the claimed closure property fails as well. -/
theorem C2_counterexample :
    mapLookup ((fullSyncWorld defaultConfig exEnv
        exStateOnlyWorld).1).state.files "gone.txt" = some exEntry ∧
    mapLookup ((fullSyncWorld defaultConfig exEnv
        exStateOnlyWorld).1).remote "gone.txt" = none ∧
    mapLookup ((fullSyncWorld defaultConfig exEnv
        exStateOnlyWorld).1).fsLocal "gone.txt" = none :=
  ⟨rfl, rfl, rfl⟩

/-! ## C3 -/

/-- C3 (amended): a path failing the scope filter receives no action and
its files entry is untouched; only the local walk additionally filters
by ignore patterns, so in-scope ignored paths are not protected (see the
counterexample). -/
theorem C3_out_of_scope_untouched (cfg : Config) (env : Env) (w : World)
    (p : String) (hq : w.state.retry_queue = [])
    (hscope : isInSyncScope cfg p = false) :
    (∀ a ∈ passActions cfg env w, a.path ≠ p) ∧
    mapLookup ((fullSyncWorld cfg env w).1).state.files p =
      mapLookup w.state.files p := by
  have hact : ∀ a ∈ buildActions cfg w.remote (localWalk cfg w.fsLocal)
      w.state.files, a.path ≠ p := by
    intro a ha hpa
    obtain ⟨hmem, _⟩ := mem_buildActions _ _ _ _ a ha
    rw [hpa] at hmem
    have hsc := ((mem_passPaths cfg _ _ _ p).mp hmem).2
    rw [hscope] at hsc
    exact Bool.false_ne_true hsc
  refine ⟨by rw [passActions_of_empty_queue cfg env w hq]; exact hact, ?_⟩
  rw [fullSyncWorld_files_of_empty_queue cfg env w hq]
  exact runActions_files_frame env w _ p hact

/-- C3 witness: the theorem applied to an excluded folder. -/
theorem C3_witness :
    (exStateOnlyWorld.state.retry_queue = [] ∧
      isInSyncScope ⟨defaultIgnorePatterns, [], ["private"]⟩
        "private/x.txt" = false) ∧
    ((∀ a ∈ passActions ⟨defaultIgnorePatterns, [], ["private"]⟩ exEnv
        exStateOnlyWorld, a.path ≠ "private/x.txt") ∧
      mapLookup ((fullSyncWorld ⟨defaultIgnorePatterns, [], ["private"]⟩
          exEnv exStateOnlyWorld).1).state.files "private/x.txt" =
        mapLookup exStateOnlyWorld.state.files "private/x.txt") :=
  ⟨⟨rfl, rfl⟩,
    C3_out_of_scope_untouched ⟨defaultIgnorePatterns, [], ["private"]⟩ exEnv
      exStateOnlyWorld "private/x.txt" rfl rfl⟩

/-- C3 counterexample: .DS_Store fails should_sync under the default
ignore patterns, yet a remote-only .DS_Store receives a download_new
action and appears in files after the pass: the remote map and the path
union are not filtered by should_sync, only by the scope check. -/
theorem C3_counterexample :
    shouldSync defaultConfig ".DS_Store" = false ∧
    SyncAction.download_new ".DS_Store" exRemote ∈
      passActions defaultConfig exEnv exIgnoredWorld ∧
    (mapLookup ((fullSyncWorld defaultConfig exEnv
        exIgnoredWorld).1).state.files ".DS_Store").isSome = true := by
  refine ⟨rfl, ?_, rfl⟩
  have h : passActions defaultConfig exEnv exIgnoredWorld =
      [SyncAction.download_new ".DS_Store" exRemote] := rfl
  rw [h]
  exact List.mem_singleton.mpr rfl

/-! ## C4 and C10: load_state -/

/-- The effect of one default-filling line on the fields of a parsed
object document. -/
def fillFields (fields : List (String × JsonValue)) (k : String)
    (dflt : JsonValue) : List (String × JsonValue) :=
  if (mapLookup fields k).isSome then fields else mapInsert fields k dflt

theorem fillKey_obj (fields : List (String × JsonValue)) (k : String)
    (dflt : JsonValue) :
    fillKey (.obj fields) k dflt = .ok (.obj (fillFields fields k dflt)) := by
  unfold fillKey fillFields
  by_cases h : (mapLookup fields k).isSome
  · simp [pyContains, h, pure, Except.pure, Bind.bind, Except.bind]
  · simp [pyContains, h, pySetKey, Bind.bind, Except.bind]

theorem mapLookup_fillFields_self (fields : List (String × JsonValue))
    (k : String) (dflt : JsonValue) :
    mapLookup (fillFields fields k dflt) k =
      some ((mapLookup fields k).getD dflt) := by
  unfold fillFields
  rcases h : mapLookup fields k with _ | v
  · simp [h, mapLookup_insert_self]
  · simp [h]

theorem mapLookup_fillFields_ne (fields : List (String × JsonValue))
    (k q : String) (dflt : JsonValue) (h : k ≠ q) :
    mapLookup (fillFields fields k dflt) q = mapLookup fields q := by
  unfold fillFields
  rcases mapLookup fields k with _ | v
  · simp [mapLookup_insert_ne _ _ _ _ h]
  · simp

/-- The four fill lines of src/state_db.py:18-25 on an object document. -/
def filledStateFields (fields : List (String × JsonValue)) :
    List (String × JsonValue) :=
  fillFields (fillFields (fillFields (fillFields fields "files" (.obj []))
    "last_poll" .null) "retry_queue" (.arr [])) "delta_link" .null

theorem loadState_obj (fs : Fs) (path stamp : String)
    (fields : List (String × JsonValue))
    (h : mapLookup fs path = some (.json (.obj fields))) :
    loadState fs path stamp = .ok (fs, .obj (filledStateFields fields)) := by
  unfold loadState filledStateFields
  rw [h]
  simp [fillKey_obj, pure, Except.pure, Bind.bind, Except.bind]

/-- C10 (amended): for a state file that parses to a JSON object, load
returns a state holding all four top-level keys, filling each missing
key with its empty default and preserving present keys and all other
keys; a document parsing to a non-object raises instead of returning
(see the counterexample). -/
theorem C10_load_fills_defaults (fs : Fs) (path stamp : String)
    (fields : List (String × JsonValue))
    (h : mapLookup fs path = some (.json (.obj fields))) :
    ∃ fields2, loadState fs path stamp = .ok (fs, .obj fields2) ∧
      mapLookup fields2 "files" =
        some ((mapLookup fields "files").getD (.obj [])) ∧
      mapLookup fields2 "last_poll" =
        some ((mapLookup fields "last_poll").getD .null) ∧
      mapLookup fields2 "retry_queue" =
        some ((mapLookup fields "retry_queue").getD (.arr [])) ∧
      mapLookup fields2 "delta_link" =
        some ((mapLookup fields "delta_link").getD .null) ∧
      ∀ k, k ≠ "files" → k ≠ "last_poll" → k ≠ "retry_queue" →
        k ≠ "delta_link" → mapLookup fields2 k = mapLookup fields k := by
  refine ⟨filledStateFields fields, loadState_obj fs path stamp fields h,
    ?_, ?_, ?_, ?_, ?_⟩
  · unfold filledStateFields
    rw [mapLookup_fillFields_ne _ _ _ _ (by decide),
      mapLookup_fillFields_ne _ _ _ _ (by decide),
      mapLookup_fillFields_ne _ _ _ _ (by decide),
      mapLookup_fillFields_self]
  · unfold filledStateFields
    rw [mapLookup_fillFields_ne _ _ _ _ (by decide),
      mapLookup_fillFields_ne _ _ _ _ (by decide),
      mapLookup_fillFields_self,
      mapLookup_fillFields_ne _ _ _ _ (by decide)]
  · unfold filledStateFields
    rw [mapLookup_fillFields_ne _ _ _ _ (by decide),
      mapLookup_fillFields_self,
      mapLookup_fillFields_ne _ _ _ _ (by decide),
      mapLookup_fillFields_ne _ _ _ _ (by decide)]
  · unfold filledStateFields
    rw [mapLookup_fillFields_self,
      mapLookup_fillFields_ne _ _ _ _ (by decide),
      mapLookup_fillFields_ne _ _ _ _ (by decide),
      mapLookup_fillFields_ne _ _ _ _ (by decide)]
  · intro k h1 h2 h3 h4
    unfold filledStateFields
    rw [mapLookup_fillFields_ne _ _ _ _ (Ne.symm h4),
      mapLookup_fillFields_ne _ _ _ _ (Ne.symm h3),
      mapLookup_fillFields_ne _ _ _ _ (Ne.symm h2),
      mapLookup_fillFields_ne _ _ _ _ (Ne.symm h1)]

/-- C10 witness: the theorem applied to a document missing every key but
holding an unrelated key. -/
theorem C10_witness :
    (mapLookup [("sync_state.json",
        Doc.json (.obj [("extra", .num 7)]))] "sync_state.json" =
      some (.json (.obj [("extra", .num 7)]))) ∧
    (∃ fields2, loadState [("sync_state.json",
        Doc.json (.obj [("extra", .num 7)]))] "sync_state.json" "stamp" =
        .ok ([("sync_state.json", Doc.json (.obj [("extra", .num 7)]))],
          .obj fields2) ∧
      mapLookup fields2 "files" =
        some ((mapLookup [("extra", JsonValue.num 7)] "files").getD (.obj [])) ∧
      mapLookup fields2 "last_poll" =
        some ((mapLookup [("extra", JsonValue.num 7)] "last_poll").getD .null) ∧
      mapLookup fields2 "retry_queue" =
        some ((mapLookup [("extra", JsonValue.num 7)] "retry_queue").getD
          (.arr [])) ∧
      mapLookup fields2 "delta_link" =
        some ((mapLookup [("extra", JsonValue.num 7)] "delta_link").getD
          .null) ∧
      ∀ k, k ≠ "files" → k ≠ "last_poll" → k ≠ "retry_queue" →
        k ≠ "delta_link" →
        mapLookup fields2 k = mapLookup [("extra", JsonValue.num 7)] k) :=
  ⟨rfl, C10_load_fills_defaults _ "sync_state.json" "stamp"
    [("extra", .num 7)] rfl⟩

/-- C10 counterexample: a state file parsing to the JSON array []
(successfully parsed, all four keys missing) makes load raise a
TypeError at the first default assignment instead of returning a state
with the defaults filled in. -/
theorem C10_counterexample :
    loadState [("sync_state.json", Doc.json (.arr []))] "sync_state.json"
      "stamp" = .error () := rfl

/-- C4 (amended): on a parse failure, load copies the file to
path ++ ".corrupt." ++ stamp and returns the empty state, and the
original path still holds the corrupt document (shutil.copy2, not a
rename); a missing state file also yields the empty state. -/
theorem C4_load_corrupt_copies (fs : Fs) (path stamp raw : String)
    (h : mapLookup fs path = some (.junk raw)) :
    loadState fs path stamp =
      .ok (mapInsert fs (path ++ ".corrupt." ++ stamp) (.junk raw),
        emptyStateJson) ∧
    mapLookup (mapInsert fs (path ++ ".corrupt." ++ stamp) (.junk raw))
      (path ++ ".corrupt." ++ stamp) = some (.junk raw) ∧
    mapLookup (mapInsert fs (path ++ ".corrupt." ++ stamp) (.junk raw))
      path = some (.junk raw) ∧
    (∀ fs2 path2 stamp2, mapLookup fs2 path2 = none →
      loadState fs2 path2 stamp2 = .ok (fs2, emptyStateJson)) := by
  have hne : path ++ ".corrupt." ++ stamp ≠ path := by
    intro heq
    have hlen := congrArg String.length heq
    rw [String.length_append, String.length_append] at hlen
    have : (".corrupt." : String).length = 9 := rfl
    omega
  refine ⟨?_, mapLookup_insert_self _ _ _, ?_, ?_⟩
  · unfold loadState
    rw [h]
  · rw [mapLookup_insert_ne _ _ _ _ hne]
    exact h
  · intro fs2 path2 stamp2 h2
    unfold loadState
    rw [h2]

/-- C4 witness: the theorem applied at a concrete corrupt state file. -/
theorem C4_witness :
    (mapLookup [("sync_state.json", Doc.junk "not json")] "sync_state.json" =
      some (.junk "not json")) ∧
    (loadState [("sync_state.json", Doc.junk "not json")] "sync_state.json"
        "20240101T000000" =
      .ok (mapInsert [("sync_state.json", Doc.junk "not json")]
        ("sync_state.json" ++ ".corrupt." ++ "20240101T000000")
        (.junk "not json"), emptyStateJson) ∧
      mapLookup (mapInsert [("sync_state.json", Doc.junk "not json")]
        ("sync_state.json" ++ ".corrupt." ++ "20240101T000000")
        (.junk "not json"))
        ("sync_state.json" ++ ".corrupt." ++ "20240101T000000") =
        some (.junk "not json") ∧
      mapLookup (mapInsert [("sync_state.json", Doc.junk "not json")]
        ("sync_state.json" ++ ".corrupt." ++ "20240101T000000")
        (.junk "not json")) "sync_state.json" = some (.junk "not json") ∧
      (∀ fs2 path2 stamp2, mapLookup fs2 path2 = none →
        loadState fs2 path2 stamp2 = .ok (fs2, emptyStateJson))) :=
  ⟨rfl, C4_load_corrupt_copies _ "sync_state.json" "20240101T000000"
    "not json" rfl⟩

/-- C4 counterexample: after load on a corrupt state file, the original
path still holds the corrupt bytes — the file was copied, not renamed,
so the claim that the original path no longer holds the corrupt document
is false. -/
theorem C4_counterexample :
    loadState [("sync_state.json", Doc.junk "not json")] "sync_state.json"
        "20240101T000000" =
      .ok ([("sync_state.json", Doc.junk "not json"),
            ("sync_state.json.corrupt.20240101T000000", Doc.junk "not json")],
        emptyStateJson) ∧
    mapLookup [("sync_state.json", Doc.junk "not json"),
        ("sync_state.json.corrupt.20240101T000000", Doc.junk "not json")]
      "sync_state.json" = some (Doc.junk "not json") :=
  ⟨rfl, rfl⟩

/-! ## C6: atomic save -/

/-- C6: save_state writes a sibling temp file and atomically renames it
over the target.  On serialization failure the temp file is unlinked,
the error propagates, and the target is untouched; on success the target
holds the new document; and after every prefix of the primitive step
sequence (every crash point) the target holds either its previous
contents or the new document — never a truncated intermediate. -/
theorem C6_save_atomic (fs : Fs) (path tmp : String) (st : JsonValue)
    (serOk : Bool) (hw : String) (hne : tmp ≠ path) :
    (serOk = false → (saveState fs path tmp st serOk hw).2 = some () ∧
      mapLookup (saveState fs path tmp st serOk hw).1 path =
        mapLookup fs path ∧
      mapLookup (saveState fs path tmp st serOk hw).1 tmp = none) ∧
    (serOk = true → (saveState fs path tmp st serOk hw).2 = none ∧
      mapLookup (saveState fs path tmp st serOk hw).1 path =
        some (.json st) ∧
      mapLookup (saveState fs path tmp st serOk hw).1 tmp = none) ∧
    (∀ n, mapLookup (applyOps fs ((saveStateOps path tmp st serOk hw).take n))
        path = mapLookup fs path ∨
      mapLookup (applyOps fs ((saveStateOps path tmp st serOk hw).take n))
        path = some (.json st)) := by
  have hne2 : path ≠ tmp := Ne.symm hne
  refine ⟨?_, ?_, ?_⟩
  · rintro rfl
    refine ⟨rfl, ?_, ?_⟩
    · simp [saveState, saveStateOps, applyOps, applyOp,
        mapLookup_insert_ne _ _ _ _ hne, mapLookup_erase_ne _ _ _ hne]
    · simp [saveState, saveStateOps, applyOps, applyOp, mapLookup_erase_self]
  · rintro rfl
    refine ⟨rfl, ?_, ?_⟩
    · simp [saveState, saveStateOps, applyOps, applyOp,
        mapLookup_insert_self, mapLookup_insert_ne, mapLookup_erase_ne]
    · simp [saveState, saveStateOps, applyOps, applyOp,
        mapLookup_insert_self, mapLookup_insert_ne _ _ _ _ hne2,
        mapLookup_erase_self]
  · intro n
    cases serOk with
    | false =>
        match n with
        | 0 => exact Or.inl rfl
        | 1 =>
            exact Or.inl (by
              simp [saveStateOps, applyOps, applyOp,
                mapLookup_insert_ne _ _ _ _ hne])
        | 2 =>
            exact Or.inl (by
              simp [saveStateOps, applyOps, applyOp,
                mapLookup_insert_ne _ _ _ _ hne])
        | (m + 3) =>
            exact Or.inl (by
              simp [saveStateOps, applyOps, applyOp,
                mapLookup_insert_ne _ _ _ _ hne,
                mapLookup_erase_ne _ _ _ hne])
    | true =>
        match n with
        | 0 => exact Or.inl rfl
        | 1 =>
            exact Or.inl (by
              simp [saveStateOps, applyOps, applyOp,
                mapLookup_insert_ne _ _ _ _ hne])
        | 2 =>
            exact Or.inl (by
              simp [saveStateOps, applyOps, applyOp,
                mapLookup_insert_ne _ _ _ _ hne])
        | (m + 3) =>
            exact Or.inr (by
              simp [saveStateOps, applyOps, applyOp, mapLookup_insert_self,
                mapLookup_insert_ne, mapLookup_erase_ne])

/-- C6 witness: the theorem applied at a concrete file system, once for
a failing serialization and once for a successful one. -/
theorem C6_witness :
    (("tmp123.tmp" : String) ≠ "sync_state.json") ∧
    ((saveState [("sync_state.json", Doc.json emptyStateJson)]
        "sync_state.json" "tmp123.tmp" (.obj []) false "half").2 = some () ∧
      mapLookup (saveState [("sync_state.json", Doc.json emptyStateJson)]
        "sync_state.json" "tmp123.tmp" (.obj []) false "half").1
        "sync_state.json" =
        mapLookup [("sync_state.json", Doc.json emptyStateJson)]
          "sync_state.json" ∧
      mapLookup (saveState [("sync_state.json", Doc.json emptyStateJson)]
        "sync_state.json" "tmp123.tmp" (.obj []) false "half").1
        "tmp123.tmp" = none) ∧
    ((saveState [("sync_state.json", Doc.json emptyStateJson)]
        "sync_state.json" "tmp123.tmp" (.obj []) true "half").2 = none ∧
      mapLookup (saveState [("sync_state.json", Doc.json emptyStateJson)]
        "sync_state.json" "tmp123.tmp" (.obj []) true "half").1
        "sync_state.json" = some (.json (.obj [])) ∧
      mapLookup (saveState [("sync_state.json", Doc.json emptyStateJson)]
        "sync_state.json" "tmp123.tmp" (.obj []) true "half").1
        "tmp123.tmp" = none) :=
  ⟨by decide,
    (C6_save_atomic [("sync_state.json", Doc.json emptyStateJson)]
      "sync_state.json" "tmp123.tmp" (.obj []) false "half"
      (by decide)).1 rfl,
    ((C6_save_atomic [("sync_state.json", Doc.json emptyStateJson)]
      "sync_state.json" "tmp123.tmp" (.obj []) true "half"
      (by decide)).2.1) rfl⟩

/-! ## C5: retry queue backoff and upsert -/

/-- At most one queue entry per (path, action) pair. -/
def retryKeyUnique (q : List RetryItem) : Prop :=
  List.Pairwise (fun i j => i.path ≠ j.path ∨ i.action ≠ j.action) q

/-- A failed attempt re-enqueues exactly the bumped item. -/
theorem attemptRetry_snd (env : Env) (w : World) (item : RetryItem)
    (item2 : RetryItem) (h : (attemptRetry env w item).2 = some item2) :
    item2 = retryFail env item := by
  unfold attemptRetry at h
  repeat' split at h
  all_goals simp_all

theorem mem_addRetry (now : Nat) (q : List RetryItem) (p a err : String)
    (j : RetryItem) (h : j ∈ addRetry now q p a err) :
    j ∈ q ∨ (j.path = p ∧ j.action = a) := by
  induction q with
  | nil =>
      simp [addRetry] at h
      subst h
      exact Or.inr ⟨rfl, rfl⟩
  | cons item rest ih =>
      unfold addRetry at h
      split at h
      · rcases List.mem_cons.mp h with h1 | h1
        · subst h1
          next hmatch => exact Or.inr ⟨hmatch.1, hmatch.2⟩
        · exact Or.inl (List.mem_cons_of_mem _ h1)
      · rcases List.mem_cons.mp h with h1 | h1
        · exact Or.inl (h1 ▸ List.mem_cons_self _ _)
        · rcases ih h1 with h2 | h2
          · exact Or.inl (List.mem_cons_of_mem _ h2)
          · exact Or.inr h2

/-- C5: (1) add_retry leaves an entry for (path, action) whose
next_retry is now plus min(2^attempts * 30, 1800) for its recorded
attempt count; (2) every item in the queue left by retry processing is
either an untouched not-yet-due item or carries the recomputed backoff;
(3) an item at 5 or more attempts is dropped with a terminal
retry_failed history event and is not re-enqueued; (4) add_retry upserts
by (path, action), preserving at-most-one-entry-per-pair. -/
theorem C5_retry_backoff_and_upsert :
    (∀ now q p a err, ∃ it, it ∈ addRetry now q p a err ∧ it.path = p ∧
      it.action = a ∧ it.error = err ∧
      it.next_retry = now + min (2 ^ it.attempts * 30) 1800) ∧
    (∀ env w queue it, it ∈ (processRetryItems env w queue).2.1 →
      (it ∈ queue ∧ it.attempts < 5 ∧ env.nowTs < it.next_retry) ∨
      it.next_retry = env.nowTs + min (2 ^ it.attempts * 30) 1800) ∧
    (∀ env w it rest, it.attempts ≥ 5 →
      (processRetryItems env w (it :: rest)).2.1 =
        (processRetryItems env w rest).2.1 ∧
      (processRetryItems env w (it :: rest)).2.2 =
        Event.retryFailed it.path it.action ::
          (processRetryItems env w rest).2.2) ∧
    (∀ now q p a err, retryKeyUnique q →
      retryKeyUnique (addRetry now q p a err)) := by
  refine ⟨?_, ?_, ?_, ?_⟩
  · intro now q p a err
    induction q with
    | nil =>
        refine ⟨_, List.mem_singleton.mpr rfl, rfl, rfl, rfl, rfl⟩
    | cons item rest ih =>
        unfold addRetry
        split
        · next hmatch =>
            exact ⟨_, List.mem_cons_self _ _, hmatch.1, hmatch.2, rfl, rfl⟩
        · obtain ⟨it, hmem, h1, h2, h3, h4⟩ := ih
          exact ⟨it, List.mem_cons_of_mem _ hmem, h1, h2, h3, h4⟩
  · intro env w queue
    induction queue generalizing w with
    | nil =>
        intro it h
        simp [processRetryItems] at h
    | cons item rest ih =>
        intro it h
        unfold processRetryItems at h
        split at h
        · rcases ih w it h with ⟨h1, h2, h3⟩ | h1
          · exact Or.inl ⟨List.mem_cons_of_mem _ h1, h2, h3⟩
          · exact Or.inr h1
        · next hdue =>
            split at h
            · next hnr =>
                rcases List.mem_cons.mp h with h1 | h1
                · subst h1
                  exact Or.inl ⟨List.mem_cons_self _ _,
                    Nat.lt_of_not_le hdue, hnr⟩
                · rcases ih w it h1 with ⟨h2, h3, h4⟩ | h2
                  · exact Or.inl ⟨List.mem_cons_of_mem _ h2, h3, h4⟩
                  · exact Or.inr h2
            · split at h
              · rcases ih _ it h with ⟨h2, h3, h4⟩ | h2
                · exact Or.inl ⟨List.mem_cons_of_mem _ h2, h3, h4⟩
                · exact Or.inr h2
              · next item2 har =>
                  rcases List.mem_cons.mp h with h1 | h1
                  · subst h1
                    rw [attemptRetry_snd env w item _ har]
                    exact Or.inr rfl
                  · rcases ih _ it h1 with ⟨h2, h3, h4⟩ | h2
                    · exact Or.inl ⟨List.mem_cons_of_mem _ h2, h3, h4⟩
                    · exact Or.inr h2
  · intro env w it rest h5
    constructor
    · conv_lhs => rw [processRetryItems]
      rw [if_pos h5]
    · conv_lhs => rw [processRetryItems]
      rw [if_pos h5]
  · intro now q p a err hu
    induction q with
    | nil =>
        simp [addRetry, retryKeyUnique]
    | cons item rest ih =>
        unfold addRetry
        unfold retryKeyUnique at hu
        rw [List.pairwise_cons] at hu
        split
        · unfold retryKeyUnique
          rw [List.pairwise_cons]
          exact ⟨fun j hj => hu.1 j hj, hu.2⟩
        · next hnomatch =>
            unfold retryKeyUnique
            rw [List.pairwise_cons]
            refine ⟨?_, ih hu.2⟩
            intro j hj
            rcases mem_addRetry now rest p a err j hj with h1 | h1
            · exact hu.1 j h1
            · by_cases hp : item.path = p
              · refine Or.inr (fun hact => hnomatch ⟨hp, ?_⟩)
                rw [hact, h1.2]
              · exact Or.inl (fun hpath => hp (by rw [hpath, h1.1]))

/-- C5 witness: a fresh add_retry gets the backoff formula; a 5-attempt
item is dropped with the terminal event; upsert keeps the queue
duplicate-free. -/
theorem C5_witness :
    (∃ it, it ∈ addRetry 1000 [] "big.bin" "upload_new" "err500" ∧
      it.path = "big.bin" ∧ it.action = "upload_new" ∧ it.error = "err500" ∧
      it.next_retry = 1000 + min (2 ^ it.attempts * 30) 1800) ∧
    (({ path := "big.bin", action := "upload_new", attempts := 5,
        next_retry := 0, error := "err500" } : RetryItem).attempts ≥ 5 ∧
      (processRetryItems exEnv exStateOnlyWorld
        [{ path := "big.bin", action := "upload_new", attempts := 5,
           next_retry := 0, error := "err500" }]).2.1 =
        (processRetryItems exEnv exStateOnlyWorld []).2.1 ∧
      (processRetryItems exEnv exStateOnlyWorld
        [{ path := "big.bin", action := "upload_new", attempts := 5,
           next_retry := 0, error := "err500" }]).2.2 =
        Event.retryFailed "big.bin" "upload_new" ::
          (processRetryItems exEnv exStateOnlyWorld []).2.2) ∧
    (retryKeyUnique [] ∧
      retryKeyUnique (addRetry 1000 [] "big.bin" "upload_new" "err500")) :=
  ⟨C5_retry_backoff_and_upsert.1 1000 [] "big.bin" "upload_new" "err500",
    ⟨by decide,
      C5_retry_backoff_and_upsert.2.2.1 exEnv exStateOnlyWorld
        { path := "big.bin", action := "upload_new", attempts := 5,
          next_retry := 0, error := "err500" } [] (by decide)⟩,
    ⟨List.Pairwise.nil,
      C5_retry_backoff_and_upsert.2.2.2 1000 [] "big.bin" "upload_new"
        "err500" List.Pairwise.nil⟩⟩

/-! ## C7: delta fallback conditions -/

theorem pyTruthyStr_eq_false (d : Option String) :
    pyTruthyStr d = false ↔ d = none ∨ d = some "" := by
  rcases d with _ | s
  · simp [pyTruthyStr]
  · simp [pyTruthyStr]

/-- C7 (amended): delta_sync falls back to full reconciliation exactly
when the stored delta_link is null or the empty string (Python
falsiness), the list_changes call raises, or no new cursor is returned;
and delta_link is replaced (with the new cursor) only on a successful
delta query that yields one — in every fallback the cursor is
unchanged. -/
theorem C7_delta_fallback_conditions (cfg : Config) (env : Env) (w : World)
    (changesRes : Except Unit (List Change × Option String)) :
    ((deltaSync cfg env w changesRes).2.1 = true ↔
      (w.state.delta_link = none ∨ w.state.delta_link = some "" ∨
        changesRes = .error () ∨ ∃ cs, changesRes = .ok (cs, none))) ∧
    (((deltaSync cfg env w changesRes).1).state.delta_link =
        w.state.delta_link ∨
      ∃ cs nl, changesRes = .ok (cs, some nl) ∧
        (deltaSync cfg env w changesRes).2.1 = false ∧
        ((deltaSync cfg env w changesRes).1).state.delta_link = some nl) := by
  by_cases hdl : pyTruthyStr w.state.delta_link
  · rcases changesRes with e | ⟨cs, nl⟩
    · cases e
      constructor
      · simp [deltaSync, hdl]
      · left
        simp only [deltaSync, hdl, Bool.not_true, Bool.false_eq_true,
          if_false]
        exact fullSyncWorld_link cfg env w
    · rcases nl with _ | nl
      · constructor
        · simp [deltaSync, hdl]
        · left
          simp only [deltaSync, hdl, Bool.not_true, Bool.false_eq_true,
            if_false]
          exact fullSyncWorld_link cfg env w
      · have hno : ¬(w.state.delta_link = none ∨ w.state.delta_link = some "" ∨
            (Except.ok (cs, some nl) : Except Unit (List Change × Option String))
              = .error () ∨
            ∃ cs2, (Except.ok (cs, some nl) : Except Unit
              (List Change × Option String)) = .ok (cs2, none)) := by
          rintro (h1 | h1 | h1 | ⟨cs2, h1⟩)
          · rw [h1] at hdl
            simp [pyTruthyStr] at hdl
          · rw [h1] at hdl
            simp [pyTruthyStr] at hdl
          · exact Except.noConfusion h1
          · have := (Except.ok.injEq _ _).mp h1
            exact Option.noConfusion (congrArg Prod.snd this)
        constructor
        · simp only [deltaSync, hdl, Bool.not_true, Bool.false_eq_true,
            if_false]
          exact iff_of_false (by simp) hno
        · right
          exact ⟨cs, nl, rfl, by simp [deltaSync, hdl],
            by simp [deltaSync, hdl]⟩
  · replace hdl : pyTruthyStr w.state.delta_link = false :=
      Bool.not_eq_true _ ▸ (by simpa using hdl)
    constructor
    · simp only [deltaSync, hdl, Bool.not_false, if_true]
      refine iff_of_true (by simp) ?_
      rcases (pyTruthyStr_eq_false _).mp hdl with h | h
      · exact Or.inl h
      · exact Or.inr (Or.inl h)
    · left
      simp only [deltaSync, hdl, Bool.not_false, if_true]
      exact fullSyncWorld_link cfg env w

/-- A world whose stored delta cursor is the empty string. -/
def exEmptyLinkWorld : World :=
  { remote := []
    fsLocal := []
    state := { files := [], retry_queue := []
               delta_link := some "", last_poll := none } }

/-- C7 counterexample: with delta_link equal to the empty string — not
null — and a list_changes result that neither raises nor lacks a cursor,
delta_sync still falls back to full reconciliation: the source tests
Python falsiness (if not delta_link), not nullness. -/
theorem C7_counterexample :
    exEmptyLinkWorld.state.delta_link = some "" ∧
    (deltaSync defaultConfig exEnv exEmptyLinkWorld
      (.ok ([], some "newCursor"))).2.1 = true :=
  ⟨rfl, rfl⟩

/-! ## C8: mark-before-transfer in _sync_existing -/

/-- C8 (amended): in _sync_existing, both write-paths that download (the
conflict path and the remote-changed pull path) emit mark_recently_synced
immediately before the download call; the local-changed push path
uploads without marking (it performs no local write, so there is no
watcher echo to suppress). -/
theorem C8_mark_before_download (env : Env) (w : World) (p : String)
    (r : RemoteInfo) (l : LocalInfo) :
    (Event.download p ∈ (syncExisting env w p r l).2 →
      (syncExisting env w p r l).2 =
        [Event.renameConflict p (conflictName p env.conflictStamp),
          Event.mark p, Event.download p] ∨
      (syncExisting env w p r l).2 = [Event.mark p, Event.download p]) ∧
    (Event.upload p ∈ (syncExisting env w p r l).2 →
      (syncExisting env w p r l).2 = [Event.upload p] ∧
      Event.mark p ∉ (syncExisting env w p r l).2) := by
  unfold syncExisting
  rcases hd : syncDecision env w.state.files p r l
  · simp [hd]
  · simp [hd]
  · simp only [hd]
    unfold handleConflict
    rcases mapLookup w.fsLocal p with _ | li
    · simp
    · simp only []
      split
      · exact ⟨fun _ => Or.inl rfl, fun hu => absurd hu (by simp)⟩
      · exact ⟨fun _ => Or.inl rfl, fun hu => absurd hu (by simp)⟩
  · simp only [hd]
    split
    · exact ⟨fun _ => Or.inr rfl, fun hu => absurd hu (by simp)⟩
    · exact ⟨fun _ => Or.inr rfl, fun hu => absurd hu (by simp)⟩
  · simp only [hd]
    rcases env.uploadRes p with _ | res
    · exact ⟨fun hdl => absurd hdl (by simp), fun _ => ⟨rfl, by simp⟩⟩
    · exact ⟨fun hdl => absurd hdl (by simp), fun _ => ⟨rfl, by simp⟩⟩
  · simp [hd]

/-- A tracked entry for which only the remote side changed. -/
def exPullEntry : FileEntry :=
  setFileEntry "T0" 5 "2024-01-02T00:00:00+00:00" "RMold" none none

/-- A world in the remote-changed pull configuration for x.txt. -/
def exPullWorld : World :=
  { remote := [("x.txt", exRemote)]
    fsLocal := [("x.txt", exLocal)]
    state := { files := [("x.txt", exPullEntry)], retry_queue := []
               delta_link := none, last_poll := none } }

/-- C8 witness: the theorem applied at a concrete pull, where the trace
is mark then download. -/
theorem C8_witness :
    Event.download "x.txt" ∈
      (syncExisting exEnv exPullWorld "x.txt" exRemote exLocal).2 ∧
    ((syncExisting exEnv exPullWorld "x.txt" exRemote exLocal).2 =
        [Event.renameConflict "x.txt"
          (conflictName "x.txt" exEnv.conflictStamp),
          Event.mark "x.txt", Event.download "x.txt"] ∨
      (syncExisting exEnv exPullWorld "x.txt" exRemote exLocal).2 =
        [Event.mark "x.txt", Event.download "x.txt"]) :=
  ⟨by decide,
    (C8_mark_before_download exEnv exPullWorld "x.txt" exRemote exLocal).1
      (by decide)⟩

/-- A tracked entry for which only the local side changed. -/
def exPushEntry : FileEntry :=
  setFileEntry "T0" 5 "LMold" "2024-01-01T00:00:00+00:00" none none

/-- A world in the local-changed push configuration for x.txt. -/
def exPushWorld : World :=
  { remote := [("x.txt", exRemote)]
    fsLocal := [("x.txt", exLocal)]
    state := { files := [("x.txt", exPushEntry)], retry_queue := []
               delta_link := none, last_poll := none } }

/-- C8 counterexample: the upload write-path of _sync_existing performs
the transfer with no mark_recently_synced event at all, so the claim
that each of the three write-paths marks the path before the transfer is
false. -/
theorem C8_counterexample :
    (syncExisting exEnv exPushWorld "x.txt" exRemote exLocal).2 =
      [Event.upload "x.txt"] ∧
    Event.mark "x.txt" ∉
      (syncExisting exEnv exPushWorld "x.txt" exRemote exLocal).2 :=
  ⟨rfl, by decide⟩

/-! ## C9: per-path semantics of one pass -/

/-- The three per-path observations an action reads and writes: the
remote listing, the on-disk local file, and the tracked entry. -/
def wTriple (w : World) (p : String) :
    Option RemoteInfo × Option LocalInfo × Option FileEntry :=
  (mapLookup w.remote p, mapLookup w.fsLocal p, mapLookup w.state.files p)

/-- The effect of one action on its own path's triple, in the
non-conflict branches (the conflict branch also touches the conflict
file's path and is excluded by hypothesis where this is used). -/
def postTriple (env : Env) (a : SyncAction)
    (t : Option RemoteInfo × Option LocalInfo × Option FileEntry) :
    Option RemoteInfo × Option LocalInfo × Option FileEntry :=
  match a with
  | .sync_existing p r l =>
      match entryDecision env p r l t.2.2 with
      | .missingEntry => t
      | .skip =>
          (t.1, t.2.1, some (setFileEntry env.now r.size l.mtime
            r.lastModifiedDateTime (env.localHash p) (some r.remote_hash)))
      | .conflict => t
      | .pull =>
          if env.downloadOk p then
            (t.1, some ⟨r.size, env.dlMtime p⟩,
              some (setFileEntry env.now r.size (env.dlMtime p)
                r.lastModifiedDateTime (env.dlHash p) (some r.remote_hash)))
          else t
      | .push =>
          match env.uploadRes p with
          | none => t
          | some res =>
              (some ⟨l.size, res.lastModifiedDateTime.getD "",
                  uploadResultHash res⟩, t.2.1,
                some (setFileEntry env.now l.size l.mtime
                  (res.lastModifiedDateTime.getD r.lastModifiedDateTime)
                  (env.localHash p) (some (uploadResultHash res))))
      | .noop => t
  | .local_deleted p =>
      ((if env.deleteOk p then none else t.1), t.2.1, none)
  | .remote_deleted _ => (t.1, none, none)
  | .download_new p r =>
      if env.downloadOk p then
        (t.1, some ⟨r.size, env.dlMtime p⟩,
          some (setFileEntry env.now r.size (env.dlMtime p)
            r.lastModifiedDateTime (env.dlHash p) (some r.remote_hash)))
      else t
  | .upload_new p l =>
      match env.uploadRes p with
      | none => t
      | some res =>
          (some ⟨l.size, res.lastModifiedDateTime.getD "",
              uploadResultHash res⟩, t.2.1,
            some (setFileEntry env.now l.size l.mtime
              (res.lastModifiedDateTime.getD "") (env.localHash p)
              (some (uploadResultHash res))))

theorem syncDecision_congr (env : Env)
    (fm1 fm2 : List (String × FileEntry)) (p : String) (r : RemoteInfo)
    (l : LocalInfo) (h : mapLookup fm1 p = mapLookup fm2 p) :
    syncDecision env fm1 p r l = syncDecision env fm2 p r l := by
  unfold syncDecision
  rw [h]

/-- Non-conflict actions read and write the three maps only at their own
path. -/
theorem execAction_triple_frame (env : Env) (w : World) (a : SyncAction)
    (q : String) (h : a.path ≠ q)
    (hnc : ∀ p r l, a = SyncAction.sync_existing p r l →
      syncDecision env w.state.files p r l ≠ .conflict) :
    wTriple ((execAction env w a).1) q = wTriple w q := by
  cases a with
  | sync_existing p r l =>
      replace h : p ≠ q := h
      show wTriple ((syncExisting env w p r l).1) q = wTriple w q
      unfold syncExisting
      rcases hd : syncDecision env w.state.files p r l
      · simp [hd, wTriple]
      · simp [hd, wTriple, mapLookup_insert_ne _ _ _ _ h]
      · exact absurd hd (hnc p r l rfl)
      · simp only [hd]
        split
        · simp [wTriple, applyDownload, mapLookup_insert_ne _ _ _ _ h]
        · rfl
      · simp only [hd]
        rcases env.uploadRes p with _ | res
        · rfl
        · simp [wTriple, mapLookup_insert_ne _ _ _ _ h]
      · simp [hd]
  | local_deleted p =>
      replace h : p ≠ q := h
      simp [execAction, localDeleted, wTriple, mapLookup_erase_ne _ _ _ h]
      split
      · simp [mapLookup_erase_ne _ _ _ h]
      · rfl
  | remote_deleted p =>
      replace h : p ≠ q := h
      simp [execAction, remoteDeleted, wTriple, mapLookup_erase_ne _ _ _ h]
  | download_new p r =>
      replace h : p ≠ q := h
      show wTriple ((downloadNew env w p r).1) q = wTriple w q
      unfold downloadNew
      split
      · simp [wTriple, applyDownload, mapLookup_insert_ne _ _ _ _ h]
      · rfl
  | upload_new p l =>
      replace h : p ≠ q := h
      show wTriple ((uploadNew env w p l).1) q = wTriple w q
      unfold uploadNew
      rcases env.uploadRes p with _ | res
      · rfl
      · simp [wTriple, mapLookup_insert_ne _ _ _ _ h]

/-- At its own path, a non-conflict action realizes postTriple. -/
theorem execAction_triple_effect (env : Env) (w : World) (a : SyncAction)
    (hnc : ∀ p r l, a = SyncAction.sync_existing p r l →
      syncDecision env w.state.files p r l ≠ .conflict) :
    wTriple ((execAction env w a).1) a.path =
      postTriple env a (wTriple w a.path) := by
  cases a with
  | sync_existing p r l =>
      show wTriple ((syncExisting env w p r l).1) p = _
      simp only [postTriple, SyncAction.path]
      have hdec : entryDecision env p r l ((wTriple w p).2.2) =
          syncDecision env w.state.files p r l := rfl
      rw [hdec]
      unfold syncExisting
      rcases hd : syncDecision env w.state.files p r l
      · simp [hd, wTriple]
      · simp [hd, wTriple, mapLookup_insert_self]
      · exact absurd hd (hnc p r l rfl)
      · simp only [hd]
        split
        · simp [wTriple, applyDownload, mapLookup_insert_self]
        · rfl
      · simp only [hd]
        rcases env.uploadRes p with _ | res
        · rfl
        · simp [wTriple, mapLookup_insert_self]
      · simp [hd]
  | local_deleted p =>
      show wTriple ((localDeleted env w p).1) p = _
      simp only [postTriple, SyncAction.path]
      unfold localDeleted wTriple
      by_cases hdel : env.deleteOk p
      · simp [hdel, mapLookup_erase_self]
      · simp [hdel, mapLookup_erase_self]
  | remote_deleted p =>
      show wTriple ((remoteDeleted w p).1) p = _
      simp only [postTriple, SyncAction.path]
      unfold remoteDeleted wTriple
      simp [mapLookup_erase_self]
  | download_new p r =>
      show wTriple ((downloadNew env w p r).1) p = _
      simp only [postTriple, SyncAction.path]
      unfold downloadNew
      split
      · simp [wTriple, applyDownload, mapLookup_insert_self]
      · rfl
  | upload_new p l =>
      show wTriple ((uploadNew env w p l).1) p = _
      simp only [postTriple, SyncAction.path]
      unfold uploadNew
      rcases env.uploadRes p with _ | res
      · rfl
      · simp [wTriple, mapLookup_insert_self]

/-- Lifting the per-action no-conflict hypothesis across a step that
does not touch the action's path. -/
theorem nonConflict_transfer (env : Env) (w w2 : World) (a : SyncAction)
    (hfr : mapLookup w2.state.files a.path = mapLookup w.state.files a.path)
    (h : ∀ p r l, a = SyncAction.sync_existing p r l →
      syncDecision env w.state.files p r l ≠ .conflict) :
    ∀ p r l, a = SyncAction.sync_existing p r l →
      syncDecision env w2.state.files p r l ≠ .conflict := by
  intro p r l heq
  have hp : a.path = p := by rw [heq]; rfl
  rw [syncDecision_congr env w2.state.files w.state.files p r l
    (hp ▸ hfr)]
  exact h p r l heq

/-- The per-path result of executing a pairwise-path-distinct,
conflict-free action list: each path sees only its own action. -/
theorem runActions_lookup (env : Env) (w : World) (acts : List SyncAction)
    (q : String) (hpw : acts.Pairwise (fun a b => a.path ≠ b.path))
    (hnc : ∀ a ∈ acts, ∀ p r l, a = SyncAction.sync_existing p r l →
      syncDecision env w.state.files p r l ≠ .conflict) :
    wTriple ((runActions env w acts).1) q =
      match acts.find? (fun a => a.path == q) with
      | none => wTriple w q
      | some a => postTriple env a (wTriple w q) := by
  induction acts generalizing w with
  | nil => simp [runActions, List.find?]
  | cons b rest ih =>
      rw [List.pairwise_cons] at hpw
      have hncb := hnc b (List.mem_cons_self b rest)
      have hnc1 : ∀ a ∈ rest, ∀ p r l, a = SyncAction.sync_existing p r l →
          syncDecision env ((execAction env w b).1).state.files p r l ≠
            .conflict := by
        intro a ha
        refine nonConflict_transfer env w _ a ?_
          (hnc a (List.mem_cons_of_mem b ha))
        exact execAction_files_frame env w b a.path (hpw.1 a ha)
      have hrun : runActions env w (b :: rest) =
          ((runActions env (execAction env w b).1 rest).1,
            (execAction env w b).2 ++
              (runActions env (execAction env w b).1 rest).2) := rfl
      by_cases hbq : b.path = q
      · have hfind : (b :: rest).find? (fun a => a.path == q) = some b := by
          simp [List.find?, hbq]
        rw [hfind, hrun]
        have hrest : ∀ a ∈ rest, ¬(a.path == q) = true := by
          intro a ha
          simp only [beq_iff_eq]
          intro hq2
          exact hpw.1 a ha (hbq.trans hq2.symm)
        have hrestfind : rest.find? (fun a => a.path == q) = none :=
          List.find?_eq_none.mpr hrest
        have := ih (execAction env w b).1 hpw.2 hnc1
        rw [hrestfind] at this
        simp only [] at this ⊢
        rw [this]
        have heff := execAction_triple_effect env w b hncb
        rw [hbq] at heff
        exact heff
      · have hbq2 : (b.path == q) = false := by
          simp [hbq]
        have hfind : (b :: rest).find? (fun a => a.path == q) =
            rest.find? (fun a => a.path == q) := by
          simp [List.find?, hbq2]
        rw [hfind, hrun]
        have hfr := execAction_triple_frame env w b q hbq hncb
        have := ih (execAction env w b).1 hpw.2 hnc1
        simp only [] at this ⊢
        rw [this, hfr]

/-- Actions built from a duplicate-free path list have pairwise distinct
paths. -/
theorem filterMap_classify_pairwise (remoteM : List (String × RemoteInfo))
    (localM : List (String × LocalInfo)) (filesM : List (String × FileEntry))
    (l : List String) (hl : l.Nodup) :
    (l.filterMap (classifyAt remoteM localM filesM)).Pairwise
      (fun a b => a.path ≠ b.path) := by
  induction l with
  | nil => simp
  | cons q qs ih =>
      rw [List.nodup_cons] at hl
      rw [List.filterMap_cons]
      rcases hc : classifyAt remoteM localM filesM q with _ | a
      · exact ih hl.2
      · rw [List.pairwise_cons]
        refine ⟨?_, ih hl.2⟩
        intro b hb
        obtain ⟨x, hx, hxc⟩ := List.mem_filterMap.mp hb
        rw [classifyAt_path _ _ _ _ _ hc, classifyAt_path _ _ _ _ _ hxc]
        intro heq
        exact hl.1 (heq ▸ hx)

theorem buildActions_pairwise (cfg : Config)
    (remoteM : List (String × RemoteInfo)) (localM : List (String × LocalInfo))
    (filesM : List (String × FileEntry)) :
    (buildActions cfg remoteM localM filesM).Pairwise
      (fun a b => a.path ≠ b.path) := by
  rw [buildActions_eq_filterMap]
  exact filterMap_classify_pairwise _ _ _ _ (nodup_passPaths cfg _ _ _)

/-- If every action leaves the world unchanged, so does the whole list. -/
theorem runActions_id (env : Env) (w : World) (acts : List SyncAction)
    (h : ∀ a ∈ acts, ((execAction env w a).1) = w) :
    ((runActions env w acts).1) = w := by
  induction acts with
  | nil => rfl
  | cons a rest ih =>
      show ((runActions env (execAction env w a).1 rest).1) = w
      rw [h a (List.mem_cons_self a rest)]
      exact ih (fun b hb => h b (List.mem_cons_of_mem a hb))

/-- A decision is noop when the entry records both current mtimes. -/
theorem entryDecision_noop (env : Env) (p : String) (r : RemoteInfo)
    (l : LocalInfo) (entry : FileEntry)
    (h1 : entry.remote_mtime = r.lastModifiedDateTime)
    (h2 : entry.local_mtime = l.mtime) :
    entryDecision env p r l (some entry) = .noop := by
  unfold entryDecision hashSkip
  simp [h1, h2]

/-- Conversely, a noop decision means neither side changed. -/
theorem entryDecision_noop_elim (env : Env) (p : String) (r : RemoteInfo)
    (l : LocalInfo) (entry : FileEntry)
    (h : entryDecision env p r l (some entry) = .noop) :
    r.lastModifiedDateTime = entry.remote_mtime ∧
      l.mtime = entry.local_mtime := by
  unfold entryDecision at h
  by_cases hrc : r.lastModifiedDateTime = entry.remote_mtime <;>
    by_cases hlc : l.mtime = entry.local_mtime
  · exact ⟨hrc, hlc⟩
  all_goals
    simp only [hrc, hlc, bne_self_eq_false, bne_iff_ne, ne_eq,
      not_false_eq_true, Bool.and_self, Bool.and_false, Bool.and_true,
      Bool.not_false, Bool.not_true, Bool.false_and, Bool.true_and,
      if_false, if_true] at h
  all_goals
    split at h <;> simp_all

/-- The noop branch of _sync_existing leaves the world untouched. -/
theorem syncExisting_noop (env : Env) (w : World) (p : String)
    (r : RemoteInfo) (l : LocalInfo)
    (h : syncDecision env w.state.files p r l = .noop) :
    syncExisting env w p r l = (w, []) := by
  unfold syncExisting
  rw [h]

theorem wTriple_components (w : World) (p : String)
    (t : Option RemoteInfo × Option LocalInfo × Option FileEntry)
    (h : wTriple w p = t) :
    mapLookup w.remote p = t.1 ∧ mapLookup w.fsLocal p = t.2.1 ∧
      mapLookup w.state.files p = t.2.2 :=
  ⟨congrArg Prod.fst h, congrArg (fun x => x.2.1) h,
    congrArg (fun x => x.2.2) h⟩

theorem walk_lookup_some (cfg : Config) (m : List (String × LocalInfo))
    (p : String) (l : LocalInfo)
    (h : mapLookup (localWalk cfg m) p = some l) :
    (!shouldIgnore cfg p && isInSyncScope cfg p) = true ∧
      mapLookup m p = some l := by
  rw [mapLookup_localWalk] at h
  by_cases hf : (!shouldIgnore cfg p && isInSyncScope cfg p : Bool)
  · exact ⟨hf, by rwa [if_pos hf] at h⟩
  · rw [if_neg hf] at h
    exact Option.noConfusion h

theorem entryDecision_some_ne_missing (env : Env) (p : String)
    (r : RemoteInfo) (l : LocalInfo) (e : FileEntry) :
    entryDecision env p r l (some e) ≠ .missingEntry := by
  intro h
  replace h : (if hashSkip env p r e (r.lastModifiedDateTime != e.remote_mtime)
        (l.mtime != e.local_mtime) then SyncDecision.skip
      else if (r.lastModifiedDateTime != e.remote_mtime) &&
        (l.mtime != e.local_mtime) then SyncDecision.conflict
      else if (r.lastModifiedDateTime != e.remote_mtime) &&
        !(l.mtime != e.local_mtime) then SyncDecision.pull
      else if (l.mtime != e.local_mtime) &&
        !(r.lastModifiedDateTime != e.remote_mtime) then SyncDecision.push
      else SyncDecision.noop) = SyncDecision.missingEntry := h
  repeat' split at h
  all_goals exact SyncDecision.noConfusion h

theorem fullSyncWorld_wTriple (cfg : Config) (env : Env) (w : World)
    (hq : w.state.retry_queue = []) (q : String) :
    wTriple ((fullSyncWorld cfg env w).1) q =
      wTriple ((runActions env w (buildActions cfg w.remote
        (localWalk cfg w.fsLocal) w.state.files)).1) q := by
  unfold fullSyncWorld
  rw [processRetryQueue_empty env w hq]
  rfl

theorem fullSyncWorld_queue_of_empty (cfg : Config) (env : Env) (w : World)
    (hq : w.state.retry_queue = []) :
    ((fullSyncWorld cfg env w).1).state.retry_queue = [] := by
  unfold fullSyncWorld
  rw [processRetryQueue_empty env w hq]
  show ((runActions env w _).1).state.retry_queue = []
  rw [(runActions_link_queue env w _).2, hq]

/-- After a conflict-free all-success first pass over a world whose
remote listing holds no ignored path, every action of the second pass is
a no-change sync_existing, leaving the world untouched. -/
theorem pass2_actions_noop (cfg : Config) (env1 env2 : Env) (w : World)
    (hq : w.state.retry_queue = [])
    (hdl : ∀ p, env1.downloadOk p = true)
    (hdel : ∀ p, env1.deleteOk p = true)
    (hup : ∀ p, ∃ res m, env1.uploadRes p = some res ∧
      res.lastModifiedDateTime = some m)
    (hig : ∀ p, (mapLookup w.remote p).isSome → shouldIgnore cfg p = false)
    (hnoconf : ∀ p r l, SyncAction.sync_existing p r l ∈
      buildActions cfg w.remote (localWalk cfg w.fsLocal) w.state.files →
      syncDecision env1 w.state.files p r l ≠ .conflict) :
    ∀ a ∈ buildActions cfg ((fullSyncWorld cfg env1 w).1).remote
        (localWalk cfg ((fullSyncWorld cfg env1 w).1).fsLocal)
        ((fullSyncWorld cfg env1 w).1).state.files,
      (execAction env2 ((fullSyncWorld cfg env1 w).1) a).1 =
        (fullSyncWorld cfg env1 w).1 := by
  intro a ha
  obtain ⟨hmem2, hc2⟩ := mem_buildActions _ _ _ _ a ha
  have hscope : isInSyncScope cfg a.path = true :=
    ((mem_passPaths cfg _ _ _ a.path).mp hmem2).2
  have hnc : ∀ b ∈ buildActions cfg w.remote (localWalk cfg w.fsLocal)
      w.state.files, ∀ p r l, b = SyncAction.sync_existing p r l →
      syncDecision env1 w.state.files p r l ≠ .conflict := by
    intro b hb p r l heq
    exact hnoconf p r l (heq ▸ hb)
  have ht := (fullSyncWorld_wTriple cfg env1 w hq a.path).trans
    (runActions_lookup env1 w _ a.path (buildActions_pairwise cfg _ _ _) hnc)
  rcases hfind : (buildActions cfg w.remote (localWalk cfg w.fsLocal)
      w.state.files).find? (fun b => b.path == a.path) with _ | b
  · -- no first-pass action at this path: the second pass classifies it
    -- exactly as the first pass did, which was none — contradiction.
    rw [hfind] at ht
    replace ht : wTriple ((fullSyncWorld cfg env1 w).1) a.path =
      wTriple w a.path := ht
    obtain ⟨hR2, hL2, hS2⟩ := wTriple_components _ _ _ ht
    have hwalk2 : mapLookup (localWalk cfg
        ((fullSyncWorld cfg env1 w).1).fsLocal) a.path =
        mapLookup (localWalk cfg w.fsLocal) a.path := by
      rw [mapLookup_localWalk, mapLookup_localWalk, hL2]
      rfl
    have hc1 : classifyAt w.remote (localWalk cfg w.fsLocal)
        w.state.files a.path = some a := by
      unfold classifyAt at hc2 ⊢
      rw [hR2, hwalk2, hS2] at hc2
      exact hc2
    have hamem : a ∈ buildActions cfg w.remote (localWalk cfg w.fsLocal)
        w.state.files := by
      rw [buildActions_eq_filterMap]
      refine List.mem_filterMap.mpr ⟨a.path, ?_, hc1⟩
      refine (mem_passPaths cfg _ _ _ a.path).mpr ⟨?_, hscope⟩
      unfold classifyAt at hc1
      rcases hr1 : mapLookup w.remote a.path with _ | r1
      · rcases hl1 : mapLookup (localWalk cfg w.fsLocal) a.path with _ | l1
        · rcases hs1 : mapLookup w.state.files a.path with _ | e1
          · rw [hr1, hl1, hs1] at hc1
            exact Option.noConfusion hc1
          · exact Or.inr (Or.inr (mapLookup_mem_keys _ _ _ hs1))
        · exact Or.inr (Or.inl (mapLookup_mem_keys _ _ _ hl1))
      · exact Or.inl (mapLookup_mem_keys _ _ _ hr1)
    have := List.find?_eq_none.mp hfind a hamem
    simp at this
  · -- there was a first-pass action b at this path.
    have hbmem := List.mem_of_find?_eq_some hfind
    have hbpath : b.path = a.path := by
      have := List.find?_some hfind
      simpa using this
    obtain ⟨_, hc1⟩ := mem_buildActions _ _ _ _ b hbmem
    rw [hbpath] at hc1
    rw [hfind] at ht
    replace ht : wTriple ((fullSyncWorld cfg env1 w).1) a.path =
      postTriple env1 b (wTriple w a.path) := ht
    -- invert the first-pass classification
    rcases hr1 : mapLookup w.remote a.path with _ | r1 <;>
      rcases hl1 : mapLookup (localWalk cfg w.fsLocal) a.path with _ | l1 <;>
      rcases he1 : mapLookup w.state.files a.path with _ | e1
    all_goals (
      unfold classifyAt at hc1
      rw [hr1, hl1, he1] at hc1)
    · exact Option.noConfusion hc1
    · exact Option.noConfusion hc1
    · -- (none, some, none): upload_new
      replace hc1 := Option.some_injective _ hc1
      obtain ⟨hfilt, hfs1⟩ := walk_lookup_some cfg _ _ _ hl1
      obtain ⟨res, m, hres, hmt⟩ := hup a.path
      have hpost : postTriple env1 b (wTriple w a.path) =
          (some ⟨l1.size, res.lastModifiedDateTime.getD "",
              uploadResultHash res⟩,
            mapLookup w.fsLocal a.path,
            some (setFileEntry env1.now l1.size l1.mtime
              (res.lastModifiedDateTime.getD "")
              (env1.localHash a.path) (some (uploadResultHash res)))) := by
        rw [← hc1]
        simp only [postTriple]
        rw [hres]
        rfl
      rw [hmt, Option.getD_some] at hpost
      rw [hpost] at ht
      obtain ⟨hR2, hL2, hS2⟩ := wTriple_components _ _ _ ht
      have hwalk2 : mapLookup (localWalk cfg
          ((fullSyncWorld cfg env1 w).1).fsLocal) a.path = some l1 := by
        rw [mapLookup_localWalk, hL2]
        show (if _ then mapLookup w.fsLocal a.path else none) = _
        rw [hfs1, if_pos hfilt]
      unfold classifyAt at hc2
      rw [hR2, hwalk2, hS2] at hc2
      replace hc2 := Option.some_injective _ hc2
      rw [← hc2]
      show (syncExisting env2 ((fullSyncWorld cfg env1 w).1) a.path
        ⟨l1.size, m, uploadResultHash res⟩ l1).1 = _
      rw [syncExisting_noop]
      · unfold syncDecision
        rw [hS2]
        exact entryDecision_noop env2 _ _ _ _ rfl rfl
    · -- (none, some, some): remote_deleted, erased on both sides
      replace hc1 := Option.some_injective _ hc1
      have hpost : postTriple env1 b (wTriple w a.path) =
          (mapLookup w.remote a.path, none, none) := by
        rw [← hc1]
        rfl
      rw [hpost, hr1] at ht
      obtain ⟨hR2, hL2, hS2⟩ := wTriple_components _ _ _ ht
      have hwalk2 : mapLookup (localWalk cfg
          ((fullSyncWorld cfg env1 w).1).fsLocal) a.path = none := by
        rw [mapLookup_localWalk, hL2]
        split <;> rfl
      unfold classifyAt at hc2
      rw [hR2, hwalk2, hS2] at hc2
      exact Option.noConfusion hc2
    · -- (some, none, none): download_new on a remote-only path
      replace hc1 := Option.some_injective _ hc1
      have hpost : postTriple env1 b (wTriple w a.path) =
          (mapLookup w.remote a.path, some ⟨r1.size, env1.dlMtime a.path⟩,
            some (setFileEntry env1.now r1.size (env1.dlMtime a.path)
              r1.lastModifiedDateTime (env1.dlHash a.path)
              (some r1.remote_hash))) := by
        rw [← hc1]
        simp only [postTriple]
        rw [hdl a.path]
        rfl
      rw [hpost, hr1] at ht
      obtain ⟨hR2, hL2, hS2⟩ := wTriple_components _ _ _ ht
      have hfilt : (!shouldIgnore cfg a.path &&
          isInSyncScope cfg a.path) = true := by
        rw [hig a.path (by rw [hr1]; rfl), hscope]
        rfl
      have hwalk2 : mapLookup (localWalk cfg
          ((fullSyncWorld cfg env1 w).1).fsLocal) a.path =
          some ⟨r1.size, env1.dlMtime a.path⟩ := by
        rw [mapLookup_localWalk, hL2, if_pos hfilt]
      unfold classifyAt at hc2
      rw [hR2, hwalk2, hS2] at hc2
      replace hc2 := Option.some_injective _ hc2
      rw [← hc2]
      show (syncExisting env2 ((fullSyncWorld cfg env1 w).1) a.path
        r1 ⟨r1.size, env1.dlMtime a.path⟩).1 = _
      rw [syncExisting_noop]
      · unfold syncDecision
        rw [hS2]
        exact entryDecision_noop env2 _ _ _ _ rfl rfl
    · -- (some, none, some): local_deleted, removed everywhere
      replace hc1 := Option.some_injective _ hc1
      have hpost : postTriple env1 b (wTriple w a.path) =
          (none, mapLookup w.fsLocal a.path, none) := by
        rw [← hc1]
        simp only [postTriple]
        rw [hdel a.path]
        rfl
      rw [hpost] at ht
      obtain ⟨hR2, hL2, hS2⟩ := wTriple_components _ _ _ ht
      have hfs1 : mapLookup w.fsLocal a.path = none ∨
          (!shouldIgnore cfg a.path && isInSyncScope cfg a.path) = false := by
        rw [mapLookup_localWalk] at hl1
        by_cases hf : (!shouldIgnore cfg a.path &&
            isInSyncScope cfg a.path : Bool)
        · rw [if_pos hf] at hl1
          exact Or.inl hl1
        · exact Or.inr (by simpa using hf)
      have hwalk2 : mapLookup (localWalk cfg
          ((fullSyncWorld cfg env1 w).1).fsLocal) a.path = none := by
        rw [mapLookup_localWalk, hL2]
        rcases hfs1 with h1 | h1
        · rw [h1]
          split <;> rfl
        · rw [h1]
          rfl
      unfold classifyAt at hc2
      rw [hR2, hwalk2, hS2] at hc2
      exact Option.noConfusion hc2
    · -- (some, some, none): the ambiguous row, download_new
      replace hc1 := Option.some_injective _ hc1
      obtain ⟨hfilt, hfs1⟩ := walk_lookup_some cfg _ _ _ hl1
      have hpost : postTriple env1 b (wTriple w a.path) =
          (mapLookup w.remote a.path, some ⟨r1.size, env1.dlMtime a.path⟩,
            some (setFileEntry env1.now r1.size (env1.dlMtime a.path)
              r1.lastModifiedDateTime (env1.dlHash a.path)
              (some r1.remote_hash))) := by
        rw [← hc1]
        simp only [postTriple]
        rw [hdl a.path]
        rfl
      rw [hpost, hr1] at ht
      obtain ⟨hR2, hL2, hS2⟩ := wTriple_components _ _ _ ht
      have hwalk2 : mapLookup (localWalk cfg
          ((fullSyncWorld cfg env1 w).1).fsLocal) a.path =
          some ⟨r1.size, env1.dlMtime a.path⟩ := by
        rw [mapLookup_localWalk, hL2, if_pos hfilt]
      unfold classifyAt at hc2
      rw [hR2, hwalk2, hS2] at hc2
      replace hc2 := Option.some_injective _ hc2
      rw [← hc2]
      show (syncExisting env2 ((fullSyncWorld cfg env1 w).1) a.path
        r1 ⟨r1.size, env1.dlMtime a.path⟩).1 = _
      rw [syncExisting_noop]
      · unfold syncDecision
        rw [hS2]
        exact entryDecision_noop env2 _ _ _ _ rfl rfl
    · -- (some, some, some): sync_existing, by decision
      replace hc1 := Option.some_injective _ hc1
      obtain ⟨hfilt, hfs1⟩ := walk_lookup_some cfg _ _ _ hl1
      have hdnc : syncDecision env1 w.state.files a.path r1 l1 ≠
          .conflict := by
        refine hnoconf a.path r1 l1 ?_
        rw [buildActions_eq_filterMap]
        refine List.mem_filterMap.mpr ⟨a.path, ?_, ?_⟩
        · refine (mem_passPaths cfg _ _ _ a.path).mpr
            ⟨Or.inl (mapLookup_mem_keys _ _ _ hr1), hscope⟩
        · unfold classifyAt
          rw [hr1, hl1, he1]
      have hdec1 : entryDecision env1 a.path r1 l1
          ((wTriple w a.path).2.2) =
          syncDecision env1 w.state.files a.path r1 l1 := rfl
      rcases hd1 : syncDecision env1 w.state.files a.path r1 l1
      · -- missingEntry is impossible: the entry exists
        unfold syncDecision at hd1
        rw [he1] at hd1
        exact absurd hd1 (entryDecision_some_ne_missing env1 _ _ _ _)
      · -- skip: state refreshed with current mtimes
        have hpost : postTriple env1 b (wTriple w a.path) =
            (mapLookup w.remote a.path, mapLookup w.fsLocal a.path,
              some (setFileEntry env1.now r1.size l1.mtime
                r1.lastModifiedDateTime (env1.localHash a.path)
                (some r1.remote_hash))) := by
          rw [← hc1]
          simp only [postTriple]
          rw [hdec1, hd1]
          rfl
        rw [hpost, hr1] at ht
        obtain ⟨hR2, hL2, hS2⟩ := wTriple_components _ _ _ ht
        have hwalk2 : mapLookup (localWalk cfg
            ((fullSyncWorld cfg env1 w).1).fsLocal) a.path = some l1 := by
          rw [mapLookup_localWalk, hL2]
          show (if _ then mapLookup w.fsLocal a.path else none) = _
          rw [hfs1, if_pos hfilt]
        unfold classifyAt at hc2
        rw [hR2, hwalk2, hS2] at hc2
        replace hc2 := Option.some_injective _ hc2
        rw [← hc2]
        show (syncExisting env2 ((fullSyncWorld cfg env1 w).1) a.path
          r1 l1).1 = _
        rw [syncExisting_noop]
        · unfold syncDecision
          rw [hS2]
          exact entryDecision_noop env2 _ _ _ _ rfl rfl
      · exact absurd hd1 hdnc
      · -- pull: downloaded, state records the fresh local mtime
        have hpost : postTriple env1 b (wTriple w a.path) =
            (mapLookup w.remote a.path,
              some ⟨r1.size, env1.dlMtime a.path⟩,
              some (setFileEntry env1.now r1.size (env1.dlMtime a.path)
                r1.lastModifiedDateTime (env1.dlHash a.path)
                (some r1.remote_hash))) := by
          rw [← hc1]
          simp only [postTriple]
          rw [hdec1, hd1, hdl a.path]
          rfl
        rw [hpost, hr1] at ht
        obtain ⟨hR2, hL2, hS2⟩ := wTriple_components _ _ _ ht
        have hwalk2 : mapLookup (localWalk cfg
            ((fullSyncWorld cfg env1 w).1).fsLocal) a.path =
            some ⟨r1.size, env1.dlMtime a.path⟩ := by
          rw [mapLookup_localWalk, hL2, if_pos hfilt]
        unfold classifyAt at hc2
        rw [hR2, hwalk2, hS2] at hc2
        replace hc2 := Option.some_injective _ hc2
        rw [← hc2]
        show (syncExisting env2 ((fullSyncWorld cfg env1 w).1) a.path
          r1 ⟨r1.size, env1.dlMtime a.path⟩).1 = _
        rw [syncExisting_noop]
        · unfold syncDecision
          rw [hS2]
          exact entryDecision_noop env2 _ _ _ _ rfl rfl
      · -- push: uploaded, the listing and the state record the server mtime
        obtain ⟨res, m, hres, hmt⟩ := hup a.path
        have hpost : postTriple env1 b (wTriple w a.path) =
            (some ⟨l1.size, res.lastModifiedDateTime.getD "",
                uploadResultHash res⟩,
              mapLookup w.fsLocal a.path,
              some (setFileEntry env1.now l1.size l1.mtime
                (res.lastModifiedDateTime.getD r1.lastModifiedDateTime)
                (env1.localHash a.path) (some (uploadResultHash res)))) := by
          rw [← hc1]
          simp only [postTriple]
          rw [hdec1, hd1, hres]
          rfl
        rw [hmt, Option.getD_some, Option.getD_some] at hpost
        rw [hpost] at ht
        obtain ⟨hR2, hL2, hS2⟩ := wTriple_components _ _ _ ht
        have hwalk2 : mapLookup (localWalk cfg
            ((fullSyncWorld cfg env1 w).1).fsLocal) a.path = some l1 := by
          rw [mapLookup_localWalk, hL2]
          show (if _ then mapLookup w.fsLocal a.path else none) = _
          rw [hfs1, if_pos hfilt]
        unfold classifyAt at hc2
        rw [hR2, hwalk2, hS2] at hc2
        replace hc2 := Option.some_injective _ hc2
        rw [← hc2]
        show (syncExisting env2 ((fullSyncWorld cfg env1 w).1) a.path
          ⟨l1.size, m, uploadResultHash res⟩ l1).1 = _
        rw [syncExisting_noop]
        · unfold syncDecision
          rw [hS2]
          exact entryDecision_noop env2 _ _ _ _ rfl rfl
      · -- noop: nothing changed, the second pass sees the same state
        have hpost : postTriple env1 b (wTriple w a.path) =
            wTriple w a.path := by
          rw [← hc1]
          simp only [postTriple]
          rw [hdec1, hd1]
        rw [hpost] at ht
        obtain ⟨hR2, hL2, hS2⟩ := wTriple_components _ _ _ ht
        have hR2a : mapLookup ((fullSyncWorld cfg env1 w).1).remote a.path =
            some r1 := by rw [hR2]; exact hr1
        have hS2a : mapLookup ((fullSyncWorld cfg env1 w).1).state.files
            a.path = some e1 := by rw [hS2]; exact he1
        have hwalk2 : mapLookup (localWalk cfg
            ((fullSyncWorld cfg env1 w).1).fsLocal) a.path = some l1 := by
          rw [mapLookup_localWalk, hL2]
          show (if _ then mapLookup w.fsLocal a.path else none) = _
          rw [hfs1, if_pos hfilt]
        unfold classifyAt at hc2
        rw [hR2a, hwalk2, hS2a] at hc2
        replace hc2 := Option.some_injective _ hc2
        have hnoop1 : entryDecision env1 a.path r1 l1 (some e1) = .noop := by
          unfold syncDecision at hd1
          rw [he1] at hd1
          exact hd1
        obtain ⟨hrm, hlm⟩ := entryDecision_noop_elim env1 _ _ _ _ hnoop1
        rw [← hc2]
        show (syncExisting env2 ((fullSyncWorld cfg env1 w).1) a.path
          r1 l1).1 = _
        rw [syncExisting_noop]
        · unfold syncDecision
          rw [hS2a]
          exact entryDecision_noop env2 _ _ _ _ hrm.symm hlm.symm

/-- C9 (amended): two full reconciliation passes back to back with no
external changes (the second pass reads the listing and tree the first
pass left), starting from an empty retry queue, with every transfer
succeeding (uploads returning a server mtime), no conflict branch taken
in the first pass, and no remote-listed path matching an ignore pattern,
leave SyncState.files identical after the second pass. -/
theorem C9_full_sync_idempotent (cfg : Config) (env1 env2 : Env) (w : World)
    (hq : w.state.retry_queue = [])
    (hdl : ∀ p, env1.downloadOk p = true)
    (hdel : ∀ p, env1.deleteOk p = true)
    (hup : ∀ p, ∃ res m, env1.uploadRes p = some res ∧
      res.lastModifiedDateTime = some m)
    (hig : ∀ p, (mapLookup w.remote p).isSome → shouldIgnore cfg p = false)
    (hnoconf : ∀ p r l, SyncAction.sync_existing p r l ∈
      buildActions cfg w.remote (localWalk cfg w.fsLocal) w.state.files →
      syncDecision env1 w.state.files p r l ≠ .conflict) :
    ((fullSyncWorld cfg env2 ((fullSyncWorld cfg env1 w).1)).1).state.files =
      ((fullSyncWorld cfg env1 w).1).state.files := by
  have hq1 : ((fullSyncWorld cfg env1 w).1).state.retry_queue = [] :=
    fullSyncWorld_queue_of_empty cfg env1 w hq
  have hnoop := pass2_actions_noop cfg env1 env2 w hq hdl hdel hup hig hnoconf
  rw [fullSyncWorld_files_of_empty_queue cfg env2 _ hq1,
    runActions_id env2 _ _ hnoop]

/-- C9 witness: the theorem applied at a concrete one-file pull world
with an all-success environment. -/
theorem C9_witness :
    (exPullWorld.state.retry_queue = [] ∧
      (∀ p, exEnv.downloadOk p = true) ∧
      (∀ p, exEnv.deleteOk p = true) ∧
      (∀ p, ∃ res m, exEnv.uploadRes p = some res ∧
        res.lastModifiedDateTime = some m) ∧
      (∀ p, (mapLookup exPullWorld.remote p).isSome →
        shouldIgnore defaultConfig p = false) ∧
      (∀ p r l, SyncAction.sync_existing p r l ∈
        buildActions defaultConfig exPullWorld.remote
          (localWalk defaultConfig exPullWorld.fsLocal)
          exPullWorld.state.files →
        syncDecision exEnv exPullWorld.state.files p r l ≠ .conflict)) ∧
    ((fullSyncWorld defaultConfig exEnv
        ((fullSyncWorld defaultConfig exEnv exPullWorld).1)).1).state.files =
      ((fullSyncWorld defaultConfig exEnv exPullWorld).1).state.files := by
  have hig : ∀ p, (mapLookup exPullWorld.remote p).isSome →
      shouldIgnore defaultConfig p = false := by
    intro p h
    by_cases hk : "x.txt" = p
    · rw [← hk]
      rfl
    · exfalso
      simp [exPullWorld, mapLookup, hk] at h
  have hnoconf : ∀ p r l, SyncAction.sync_existing p r l ∈
      buildActions defaultConfig exPullWorld.remote
        (localWalk defaultConfig exPullWorld.fsLocal)
        exPullWorld.state.files →
      syncDecision exEnv exPullWorld.state.files p r l ≠ .conflict := by
    intro p r l hmem
    have hb : buildActions defaultConfig exPullWorld.remote
        (localWalk defaultConfig exPullWorld.fsLocal)
        exPullWorld.state.files =
        [SyncAction.sync_existing "x.txt" exRemote exLocal] := rfl
    rw [hb] at hmem
    have heq := List.mem_singleton.mp hmem
    injection heq with hp hr hl
    subst hp
    subst hr
    subst hl
    decide
  exact ⟨⟨rfl, fun _ => rfl, fun _ => rfl, fun _ => ⟨_, _, rfl, rfl⟩, hig,
      hnoconf⟩,
    C9_full_sync_idempotent defaultConfig exEnv exEnv exPullWorld rfl
      (fun _ => rfl) (fun _ => rfl) (fun _ => ⟨_, _, rfl, rfl⟩) hig hnoconf⟩

/-- C9 counterexample: an ignored remote-only file (.DS_Store) is
downloaded and tracked by the first pass, but the second pass does not
see it in the filtered local walk and so emits local_deleted, removing
the entry: with no external changes and every action succeeding, files
after the second pass differs from files after the first. -/
theorem C9_counterexample :
    (mapLookup ((fullSyncWorld defaultConfig exEnv
        exIgnoredWorld).1).state.files ".DS_Store").isSome = true ∧
    mapLookup ((fullSyncWorld defaultConfig exEnv
        ((fullSyncWorld defaultConfig exEnv
          exIgnoredWorld).1)).1).state.files ".DS_Store" = none ∧
    ((fullSyncWorld defaultConfig exEnv ((fullSyncWorld defaultConfig exEnv
        exIgnoredWorld).1)).1).state.files ≠
      ((fullSyncWorld defaultConfig exEnv exIgnoredWorld).1).state.files :=
  ⟨rfl, rfl, by decide⟩

end Autosync
